import Mathlib

/-!
# LibreVNA PC application: trace markers and the virtual device

A shallow embedding of `Software/PC_Application/Traces/tracemarker.cpp`
(`TraceMarker`) and of the parts of the `VirtualDevice` coordination core that
are declared in `Software/PC_Application/Device/virtualdevice.h`.

Conventions of the embedding:

* a C++ `double` is carried as a rational number; no statement below depends
  on rounding, the values are only stored, compared and handed on;
* an object pointer is a natural number (the address), a nullable pointer an
  `Option`;
* a member function of `TraceMarker` takes the marker (`this`) and the
  `World` (heap allocation counter and the log of emitted Qt signals and of
  calls into other objects) and returns both; `none` is undefined behaviour
  of the C++ code (null dereference, out-of-range `operator[]`, `back()` of an
  empty vector) or exhausted recursion fuel;
* slots of other objects that are connected to the emitted signals are not
  part of the embedded functions; an emitted signal is recorded in the log.
-/

namespace LibreVNA

/-! ## Data model of `tracemarker.cpp` -/

/-- The enumeration `TraceMarker::Type`, with the enumerators used in `tracemarker.cpp`. -/
inductive MarkerType where
  | Manual
  | Maximum
  | Minimum
  | Delta
  | Noise
  | PeakTable
  | Lowpass
  | Highpass
  | Bandpass
  | TOI
  | PhaseNoise
  deriving DecidableEq, Repr

/-- The enumeration `Trace::LiveParameter`, with the enumerators handled by the
switch in `TraceMarker::getSupportedTypes` (the declaration is in `trace.h`). -/
inductive LiveParameter where
  | S11
  | S12
  | S21
  | S22
  | Port1
  | Port2
  deriving DecidableEq, Repr

/-- A `std::complex<double>`: real and imaginary part. -/
abbrev Complex64 := Rat × Rat

/-- The record `Trace::TimedomainData`, with the members read in `tracemarker.cpp`. -/
structure TimedomainData where
  time : Rat
  distance : Rat
  impulseResponse : Rat
  stepResponse : Rat
  impedance : Rat
  deriving DecidableEq, Repr

/-- One sample of a trace (`Trace::sample(index)`): its frequency and S parameter. -/
structure TraceSample where
  frequency : Rat
  S : Complex64
  deriving DecidableEq, Repr

/-- The class `Trace` as `TraceMarker` observes it: the object identity and the
results of the member functions that `tracemarker.cpp` calls. -/
structure Trace where
  ptr : Nat
  size : Nat
  TDRactive : Bool
  isLive : Bool
  liveParameter : LiveParameter
  isReflection : Bool
  color : Nat
  maxFreq : Rat
  minFreq : Rat
  getTDR : List TimedomainData
  getTDRat : Rat → TimedomainData
  getData : Rat → Complex64
  findExtremumFreq : Bool → Rat
  findPeakFrequencies : Nat → Option Rat → List Rat
  index : Rat → Int
  sample : Int → TraceSample

/-- The `QPixmap symbol` of a marker: the 1x1 pixmap of an invisible marker, or
the triangle in the trace colour labelled with marker number and suffix. -/
inductive Symbol where
  | null
  | blank
  | triangle (traceColor : Nat) (number : Int) (suffix : String)
  deriving DecidableEq, Repr

/-- The class `TraceMarker`: its data members. `self` is the address of the
object; the helper markers, which the marker owns, are nested values. -/
structure TraceMarker where
  self : Nat
  editingFrequeny : Bool
  parentTrace : Option Trace
  position : Rat
  number : Int
  data : Complex64
  symbol : Symbol
  type : MarkerType
  suffix : String
  description : String
  timeDomain : Bool
  timeData : TimedomainData
  delta : Option Nat
  helperMarkers : List TraceMarker
  parent : Option Nat
  cutoffAmplitude : Rat
  peakThreshold : Rat
  offset : Rat

/-- What `model->getMarkers()` exposes of one marker of the `TraceMarkerModel`:
its address, `isTimeDomain()` and the address of its parent trace. -/
structure ModelMarker where
  ptr : Nat
  timeDomain : Bool
  parentTrace : Option Nat

/-- A Qt signal emitted by a marker, or a call a marker makes into another object. -/
inductive Event where
  | deleted (marker : Nat)
  | timeDomainChanged (marker : Nat)
  | traceChanged (marker : Nat)
  | rawDataChanged (marker : Nat)
  | symbolChanged (marker : Nat)
  | typeChanged (marker : Nat)
  | dataChanged (marker : Nat)
  | beginRemoveHelperMarkers (marker : Nat)
  | endRemoveHelperMarkers (marker : Nat)
  | warning (text : String)
  | removeMarker (trace : Nat) (marker : Nat)
  | addMarker (trace : Nat) (marker : Nat)
  | connectTDRstate (trace : Nat) (marker : Nat)
  | disconnectTDRstate (trace : Option Nat)
  | connectTrace (trace : Option Nat) (marker : Nat)
  | disconnectTrace (trace : Nat) (marker : Nat)
  | connectDelta (partner : Nat) (marker : Nat)
  | disconnectDelta (partner : Nat) (marker : Nat)
  deriving DecidableEq, Repr

/-- The state outside the marker: the next free heap address and the log of events. -/
structure World where
  nextPtr : Nat
  log : List Event

/-- The surroundings of a marker that `tracemarker.cpp` reads but does not define:
the markers of the model, the function `20*log10(abs(·))`, and the values of the
data members the constructor leaves out of its initialiser list. -/
structure Env where
  getMarkers : List ModelMarker
  decibel : Complex64 → Rat
  uninitTimeDomain : Bool
  uninitTimeData : TimedomainData
  uninitPeakThreshold : Rat
  uninitOffset : Rat

/-- Record an event (`emit`, or a call into another object). -/
def World.emit (w : World) (e : Event) : World :=
  { w with log := w.log ++ [e] }

/-! ## Member functions without recursion -/

/-- `TraceMarker::TraceMarker(model, number, parent, descr)` at the address `self`. -/
def TraceMarker.new (env : Env) (self : Nat) (number : Int) (parent : Option Nat)
    (descr : String) : TraceMarker :=
  { self := self
    editingFrequeny := false
    parentTrace := none
    position := 1000000000
    number := number
    data := (0, 0)
    symbol := .null
    type := .Manual
    suffix := ""
    description := descr
    timeDomain := env.uninitTimeDomain
    timeData := env.uninitTimeData
    delta := none
    helperMarkers := []
    parent := parent
    cutoffAmplitude := -3
    peakThreshold := env.uninitPeakThreshold
    offset := env.uninitOffset }

/-- The expression `new TraceMarker(model, number, parent, descr)`: the next free address is used. -/
def World.newTraceMarker (env : Env) (w : World) (number : Int) (parent : Option Nat)
    (descr : String) : TraceMarker × World :=
  (TraceMarker.new env w.nextPtr number parent descr, { w with nextPtr := w.nextPtr + 1 })

/-- `TraceMarker::trace()`. -/
def TraceMarker.trace (m : TraceMarker) : Option Trace := m.parentTrace

/-- `TraceMarker::isTimeDomain()`. -/
def TraceMarker.isTimeDomain (m : TraceMarker) : Bool := m.timeDomain

/-- `TraceMarker::getSupportedTypes()`. -/
def TraceMarker.getSupportedTypes (m : TraceMarker) : Finset MarkerType :=
  let supported : Finset MarkerType := ∅
  match m.parentTrace with
  | none => supported
  | some parentTrace =>
    if m.timeDomain then
      -- only basic markers in time domain
      let supported := insert .Manual supported
      let supported := insert .Delta supported
      supported
    else
      -- all traces support some basic markers
      let supported := insert .Manual supported
      let supported := insert .Maximum supported
      let supported := insert .Minimum supported
      let supported := insert .Delta supported
      let supported := insert .PeakTable supported
      if parentTrace.isLive then
        match parentTrace.liveParameter with
        | .S11 | .S12 | .S21 | .S22 =>
          -- special VNA marker types
          let supported := insert .Lowpass supported
          let supported := insert .Highpass supported
          let supported := insert .Bandpass supported
          supported
        | .Port1 | .Port2 =>
          -- special SA marker types
          let supported := insert .Noise supported
          let supported := insert .TOI supported
          let supported := insert .PhaseNoise supported
          supported
      else
        supported

/-- `TraceMarker::isVisible()`. -/
def TraceMarker.isVisible (m : TraceMarker) : Bool :=
  match m.type with
  | .Manual | .Delta | .Maximum | .Minimum | .Noise | .PhaseNoise => true
  | _ => false

/-- `TraceMarker::isMovable()`. -/
def TraceMarker.isMovable (m : TraceMarker) : Bool :=
  if m.parent.isSome then
    -- helper traces are never movable by the user
    false
  else
    match m.type with
    | .Manual | .Delta | .Noise => true
    | _ => false

/-- `TraceMarker::updateSymbol()`. -/
def TraceMarker.updateSymbol (m : TraceMarker) (w : World) : Option (TraceMarker × World) :=
  if m.isVisible then
    match m.parentTrace with
    | none => none
    | some parentTrace =>
      some ({ m with symbol := .triangle parentTrace.color m.number m.suffix },
            w.emit (.symbolChanged m.self))
  else
    some ({ m with symbol := .blank }, w.emit (.symbolChanged m.self))

/-- `TraceMarker::assignDeltaMarker(m)`. -/
def TraceMarker.assignDeltaMarker (m : TraceMarker) (partner : Option Nat) (w : World) :
    TraceMarker × World :=
  let w := match m.delta with
    | some old => w.emit (.disconnectDelta old m.self)
    | none => w
  let m := { m with delta := partner }
  match m.delta with
  | some d =>
    if d ≠ m.self then
      -- this marker has to be updated when the delta marker changes
      (m, w.emit (.connectDelta d m.self))
    else (m, w)
  | none => (m, w)

mutual
/-- The events of `delete m`, that is of `TraceMarker::~TraceMarker()`. -/
def TraceMarker.destructor : TraceMarker → List Event
  | ⟨self, _, parentTrace, _, _, _, _, _, _, _, _, _, _, helperMarkers, _, _, _, _⟩ =>
    (match parentTrace with
      | some t => [Event.removeMarker t.ptr self]
      | none => [])
    ++ [Event.beginRemoveHelperMarkers self]
    ++ TraceMarker.destructorList helperMarkers
    ++ [Event.endRemoveHelperMarkers self]
    ++ [Event.deleted self]
/-- The events of deleting every marker of a vector of helper markers, in order. -/
def TraceMarker.destructorList : List TraceMarker → List Event
  | [] => []
  | h :: hs => TraceMarker.destructor h ++ TraceMarker.destructorList hs
end

/-- `TraceMarker::deleteHelperMarkers()`. -/
def TraceMarker.deleteHelperMarkers (m : TraceMarker) (w : World) : TraceMarker × World :=
  let w := w.emit (.beginRemoveHelperMarkers m.self)
  let w := { w with log := w.log ++ TraceMarker.destructorList m.helperMarkers }
  let m := { m with helperMarkers := [] }
  (m, w.emit (.endRemoveHelperMarkers m.self))

/-- The clamping of `position` in `TraceMarker::constrainPosition()`, before the
call of `traceDataChanged()`. -/
def TraceMarker.clampPosition (m : TraceMarker) (parentTrace : Trace) : Option TraceMarker :=
  if m.timeDomain then
    if m.position < 0 then
      some { m with position := 0 }
    else
      match parentTrace.getTDR.getLast? with
      | none => none
      | some back =>
        if m.position > back.distance then
          some { m with position := back.distance }
        else some m
  else
    if parentTrace.size > 0 then
      if m.position > parentTrace.maxFreq then
        some { m with position := parentTrace.maxFreq }
      else if m.position < parentTrace.minFreq then
        some { m with position := parentTrace.minFreq }
      else some m
    else some m

/-- The first half of `TraceMarker::traceDataChanged()`: the marker with `timeData`
refreshed in time domain, and the value `newdata` read from the parent trace. -/
def TraceMarker.readTrace (m : TraceMarker) (parentTrace : Trace) : TraceMarker × Complex64 :=
  if m.timeDomain then
    let timeData := parentTrace.getTDRat m.position
    ({ m with timeData := timeData }, (timeData.stepResponse, timeData.impulseResponse))
  else
    (m, parentTrace.getData m.position)

/-- The loop `while(index >= 0 && index < size) { if(amplitude <= cutoff) break; index += inc; }`
of the low pass and high pass case of `TraceMarker::update()`; `steps` bounds the
number of iterations, `size + 1` is enough as the index moves one way. -/
def cutoffSearch (amplitude : Int → Rat) (size : Nat) (cutoff : Rat) (inc : Int) :
    Nat → Int → Int
  | 0, index => index
  | steps + 1, index =>
    if 0 ≤ index ∧ index < (size : Int) then
      if amplitude index ≤ cutoff then index
      else cutoffSearch amplitude size cutoff inc steps (index + inc)
    else index

/-- The loop `while(low_index >= 0) { if(amplitude <= cutoff) break; low_index--; }`
of the band pass case of `TraceMarker::update()`. -/
def lowSearch (amplitude : Int → Rat) (cutoff : Rat) : Nat → Int → Int
  | 0, index => index
  | steps + 1, index =>
    if 0 ≤ index then
      if amplitude index ≤ cutoff then index
      else lowSearch amplitude cutoff steps (index - 1)
    else index

/-- The loop `while(high_index < size) { if(amplitude <= cutoff) break; high_index++; }`
of the band pass case of `TraceMarker::update()`. -/
def highSearch (amplitude : Int → Rat) (size : Nat) (cutoff : Rat) : Nat → Int → Int
  | 0, index => index
  | steps + 1, index =>
    if index < (size : Int) then
      if amplitude index ≤ cutoff then index
      else highSearch amplitude size cutoff steps (index + 1)
    else index

/-- The search for a delta partner in the `Type::Delta` case of `TraceMarker::setType`:
the first marker of the model that one pass accepts. -/
def TraceMarker.deltaCandidate (env : Env) (m : TraceMarker) (pass : Nat) : Option ModelMarker :=
  env.getMarkers.find? fun c =>
    let cTimeDomain := if c.ptr = m.self then m.timeDomain else c.timeDomain
    let cParentTrace := if c.ptr = m.self then m.parentTrace.map Trace.ptr else c.parentTrace
    if cTimeDomain ≠ m.isTimeDomain then
      -- markers are not on the same domain
      false
    else if pass = 0 ∧ cParentTrace ≠ m.parentTrace.map Trace.ptr then
      -- ignore markers on different traces in first pass
      false
    else if pass ≤ 1 ∧ c.ptr = m.self then
      -- ignore itself on second pass
      false
    else true

/-- The `Type::Delta` case of the switch in `TraceMarker::setType`. -/
def TraceMarker.findDelta (env : Env) (m : TraceMarker) (w : World) : TraceMarker × World :=
  let m := { m with delta := none }
  match m.deltaCandidate env 0 with
  | some c => m.assignDeltaMarker (some c.ptr) w
  | none =>
    match m.deltaCandidate env 1 with
    | some c => m.assignDeltaMarker (some c.ptr) w
    | none =>
      match m.deltaCandidate env 2 with
      | some c => m.assignDeltaMarker (some c.ptr) w
      | none => (m, w)

/-- The local type `helper_descr` of `TraceMarker::setType`. -/
structure HelperDescr where
  suffix : String
  description : String
  type : MarkerType

/-- The vector `required_helpers` that the switch of `TraceMarker::setType` fills in. -/
def requiredHelpers : MarkerType → List HelperDescr
  | .Lowpass | .Highpass => [⟨"c", "cutoff", .Manual⟩]
  | .Bandpass => [⟨"l", "lower cutoff", .Manual⟩, ⟨"h", "higher cutoff", .Manual⟩,
                  ⟨"c", "center", .Manual⟩]
  | .TOI => [⟨"p", "first peak", .Manual⟩, ⟨"p", "second peak", .Manual⟩,
             ⟨"l", "left intermodulation", .Manual⟩, ⟨"r", "right intermodulation", .Manual⟩]
  | .PhaseNoise => [⟨"o", "Offset", .Noise⟩]
  | _ => []

/-- The suffix of the `i`-th helper of a peak table: `char suffix = 'a'`, incremented per peak. -/
def peakSuffix (i : Nat) : String :=
  String.singleton (Char.ofNat ((97 + i) % 256))

/-- The call `helperMarkers[i]->f(...)` of a member function on the `i`-th helper marker. -/
def TraceMarker.withHelper (m : TraceMarker) (i : Nat)
    (f : TraceMarker → World → Option (TraceMarker × World)) (w : World) :
    Option (TraceMarker × World) :=
  match m.helperMarkers[i]? with
  | none => none
  | some helper =>
    match f helper w with
    | none => none
    | some (helper, w) => some ({ m with helperMarkers := m.helperMarkers.set i helper }, w)

/-- The body of the loop `for(auto p : peaks)` in the peak table case of
`TraceMarker::update()`: create a helper, assign the trace, set the position and
append it. `assign` and `setPos` are `assignTrace` and `setPosition` of the helper. -/
def TraceMarker.addPeakHelper (env : Env)
    (assign : Option Trace → TraceMarker → World → Option (TraceMarker × World))
    (setPos : Rat → TraceMarker → World → Option (TraceMarker × World))
    (parentTrace : Trace) (acc : TraceMarker × World) (p : Rat) : Option (TraceMarker × World) :=
  let (helper, w) := acc.2.newTraceMarker env acc.1.number (some acc.1.self) ""
  let helper := { helper with suffix := peakSuffix acc.1.helperMarkers.length }
  match assign (some parentTrace) helper w with
  | none => none
  | some (helper, w) =>
    match setPos p helper w with
    | none => none
    | some (helper, w) =>
      some ({ acc.1 with helperMarkers := acc.1.helperMarkers ++ [helper] }, w)

/-- The body of the loop `for(auto h : required_helpers)` in `TraceMarker::setType`.
`assign` and `setTy` are `assignTrace` and `setType` of the helper. -/
def TraceMarker.createHelper (env : Env)
    (assign : Option Trace → TraceMarker → World → Option (TraceMarker × World))
    (setTy : MarkerType → TraceMarker → World → Option (TraceMarker × World))
    (acc : TraceMarker × World) (h : HelperDescr) : Option (TraceMarker × World) :=
  let (helper, w) := acc.2.newTraceMarker env acc.1.number (some acc.1.self) h.description
  let helper := { helper with suffix := h.suffix }
  match assign acc.1.parentTrace helper w with
  | none => none
  | some (helper, w) =>
    match setTy h.type helper w with
    | none => none
    | some (helper, w) =>
      some ({ acc.1 with helperMarkers := acc.1.helperMarkers ++ [helper] }, w)

/-- The body of the loop `for(auto m : helperMarkers) m->assignTrace(t)` in
`TraceMarker::assignTrace`; `assign` is `assignTrace(t)` of the helper. -/
def TraceMarker.assignHelper
    (assign : TraceMarker → World → Option (TraceMarker × World))
    (acc : List TraceMarker × World) (helper : TraceMarker) :
    Option (List TraceMarker × World) :=
  match assign helper acc.2 with
  | none => none
  | some (helper, w) => some (acc.1 ++ [helper], w)

/-- The case `Type::PeakTable` of the switch in `TraceMarker::update()`. -/
def TraceMarker.updatePeakTable (m : TraceMarker) (env : Env)
    (assign : Option Trace → TraceMarker → World → Option (TraceMarker × World))
    (setPos : Rat → TraceMarker → World → Option (TraceMarker × World))
    (parentTrace : Trace) (w : World) : Option (TraceMarker × World) :=
  let cleared := m.deleteHelperMarkers w
  let peaks := parentTrace.findPeakFrequencies 100 (some cleared.1.peakThreshold)
  peaks.foldlM (TraceMarker.addPeakHelper env assign setPos parentTrace) cleared

/-- The cases `Type::Lowpass` and `Type::Highpass` of the switch in
`TraceMarker::update()`; `setPos` is `setPosition` of this marker or of a helper. -/
def TraceMarker.updateCutoff (m : TraceMarker) (env : Env)
    (setPos : Rat → TraceMarker → World → Option (TraceMarker × World))
    (parentTrace : Trace) (w : World) : Option (TraceMarker × World) :=
  if parentTrace.isReflection then
    -- lowpass/highpass calculation only works with transmission measurement
    some (m, w)
  else
    -- find the maximum
    let peakFreq := parentTrace.findExtremumFreq true
    -- this marker shows the insertion loss
    match setPos peakFreq m w with
    | none => none
    | some (m, w) =>
      -- find the cutoff frequency
      let amplitude : Int → Rat := fun i => env.decibel (parentTrace.sample i).S
      let size : Int := parentTrace.size
      let index := parentTrace.index peakFreq
      let peakAmplitude := amplitude index
      let cutoff := peakAmplitude + m.cutoffAmplitude
      let inc : Int := if m.type = .Lowpass then 1 else -1
      let index := cutoffSearch amplitude parentTrace.size cutoff inc (parentTrace.size + 1) index
      let index := if index < 0 then 0 else if index ≥ size then size - 1 else index
      -- set position of cutoff marker
      m.withHelper 0 (setPos (parentTrace.sample index).frequency) w

/-- The case `Type::Bandpass` of the switch in `TraceMarker::update()`. -/
def TraceMarker.updateBandpass (m : TraceMarker) (env : Env)
    (setPos : Rat → TraceMarker → World → Option (TraceMarker × World))
    (parentTrace : Trace) (w : World) : Option (TraceMarker × World) :=
  if parentTrace.isReflection then
    -- lowpass/highpass calculation only works with transmission measurement
    some (m, w)
  else
    -- find the maximum
    let peakFreq := parentTrace.findExtremumFreq true
    -- this marker shows the insertion loss
    match setPos peakFreq m w with
    | none => none
    | some (m, w) =>
      -- find the cutoff frequencies
      let amplitude : Int → Rat := fun i => env.decibel (parentTrace.sample i).S
      let size : Int := parentTrace.size
      let index := parentTrace.index peakFreq
      let peakAmplitude := amplitude index
      let cutoff := peakAmplitude + m.cutoffAmplitude
      let low_index := lowSearch amplitude cutoff (index.toNat + 1) index
      let low_index := if low_index < 0 then 0 else low_index
      -- set position of cutoff marker
      match m.withHelper 0 (setPos (parentTrace.sample low_index).frequency) w with
      | none => none
      | some (m, w) =>
        let high_index := highSearch amplitude parentTrace.size cutoff
          ((size - index).toNat + 1) index
        let high_index := if high_index ≥ size then size - 1 else high_index
        -- set position of cutoff marker
        match m.withHelper 1 (setPos (parentTrace.sample high_index).frequency) w with
        | none => none
        | some (m, w) =>
          -- set center marker inbetween cutoff markers
          match m.helperMarkers[0]?, m.helperMarkers[1]? with
          | some h0, some h1 => m.withHelper 2 (setPos ((h0.position + h1.position) / 2)) w
          | _, _ => none

/-- The case `Type::TOI` of the switch in `TraceMarker::update()`. -/
def TraceMarker.updateTOI (m : TraceMarker)
    (setPos : Rat → TraceMarker → World → Option (TraceMarker × World))
    (parentTrace : Trace) (w : World) : Option (TraceMarker × World) :=
  match parentTrace.findPeakFrequencies 2 none with
  | [peak0, peak1] =>
    -- assign marker frequenies:
    -- this marker is the left peak, first helper the right peak.
    -- 2nd and 3rd helpers are left and right TOI peaks
    match m.withHelper 0 (setPos peak0) w with
    | none => none
    | some (m, w) =>
      match m.withHelper 1 (setPos peak1) w with
      | none => none
      | some (m, w) =>
        let freqDiff := peak1 - peak0
        match m.withHelper 2 (setPos (peak0 - freqDiff)) w with
        | none => none
        | some (m, w) => m.withHelper 3 (setPos (peak1 + freqDiff)) w
  | _ =>
    -- error finding peaks, do nothing
    some (m, w)

/-- The case `Type::PhaseNoise` of the switch in `TraceMarker::update()`. -/
def TraceMarker.updatePhaseNoise (m : TraceMarker)
    (setPos : Rat → TraceMarker → World → Option (TraceMarker × World))
    (parentTrace : Trace) (w : World) : Option (TraceMarker × World) :=
  match setPos (parentTrace.findExtremumFreq true) m w with
  | none => none
  | some (m, w) => m.withHelper 0 (setPos (m.position + m.offset)) w

/-- The first part of `TraceMarker::setType(t)`: the helper markers are
deleted, the type is assigned, and a delta marker looks for its partner. -/
def TraceMarker.beginSetType (m : TraceMarker) (env : Env) (t : MarkerType) (w : World) :
    TraceMarker × World :=
  -- remove any potential helper markers
  let cleared := m.deleteHelperMarkers w
  let m := { cleared.1 with type := t }
  match m.type with
  | .Delta => m.findDelta env cleared.2
  | _ => (m, cleared.2)

/-! ## Member functions that call each other

The first argument is the recursion fuel: every call of a member function uses one unit. -/

mutual

/-- `TraceMarker::setPosition(pos)`. -/
def TraceMarker.setPosition :
    Nat → Env → Rat → TraceMarker → World → Option (TraceMarker × World)
  | 0, _, _, _, _ => none
  | fuel + 1, env, pos, m, w =>
    let m := { m with position := pos }
    TraceMarker.constrainPosition fuel env m w

/-- `TraceMarker::constrainPosition()`. -/
def TraceMarker.constrainPosition :
    Nat → Env → TraceMarker → World → Option (TraceMarker × World)
  | 0, _, _, _ => none
  | fuel + 1, env, m, w =>
    match m.parentTrace with
    | none => some (m, w)
    | some parentTrace =>
      match m.clampPosition parentTrace with
      | none => none
      | some m => TraceMarker.traceDataChanged fuel env m w

/-- `TraceMarker::traceDataChanged()`. -/
def TraceMarker.traceDataChanged :
    Nat → Env → TraceMarker → World → Option (TraceMarker × World)
  | 0, _, _, _ => none
  | fuel + 1, env, m, w =>
    match m.parentTrace with
    | none => none
    | some parentTrace =>
      -- some data of the parent trace changed, check if marker data also changed
      let read := m.readTrace parentTrace
      if read.2 ≠ read.1.data then
        match TraceMarker.update fuel env { read.1 with data := read.2 } w with
        | none => none
        | some (m, w) => some (m, w.emit (.rawDataChanged m.self))
      else some (read.1, w)

/-- `TraceMarker::update()`. The member `parentTrace` is read once: nothing that
`update()` calls on this marker assigns it. -/
def TraceMarker.update :
    Nat → Env → TraceMarker → World → Option (TraceMarker × World)
  | 0, _, _, _ => none
  | fuel + 1, env, m, w =>
    match m.parentTrace with
    | none => none
    | some parentTrace =>
      if parentTrace.size = 0 then
        -- empty trace, nothing to do
        some (m, w)
      else
        let switch : Option (TraceMarker × World) :=
          match m.type with
          | .Manual | .Delta | .Noise =>
            -- nothing to do
            some (m, w)
          | .Maximum =>
            TraceMarker.setPosition fuel env (parentTrace.findExtremumFreq true) m w
          | .Minimum =>
            TraceMarker.setPosition fuel env (parentTrace.findExtremumFreq false) m w
          | .PeakTable =>
            m.updatePeakTable env (TraceMarker.assignTrace fuel env)
              (TraceMarker.setPosition fuel env) parentTrace w
          | .Lowpass | .Highpass =>
            m.updateCutoff env (TraceMarker.setPosition fuel env) parentTrace w
          | .Bandpass =>
            m.updateBandpass env (TraceMarker.setPosition fuel env) parentTrace w
          | .TOI =>
            m.updateTOI (TraceMarker.setPosition fuel env) parentTrace w
          | .PhaseNoise =>
            m.updatePhaseNoise (TraceMarker.setPosition fuel env) parentTrace w
        match switch with
        | none => none
        | some (m, w) => some (m, w.emit (.dataChanged m.self))

/-- `TraceMarker::setTimeDomain(timeDomain)`. -/
def TraceMarker.setTimeDomain :
    Nat → Env → Bool → TraceMarker → World → Option (TraceMarker × World)
  | 0, _, _, _, _ => none
  | fuel + 1, env, timeDomain, m, w =>
    if timeDomain ≠ m.timeDomain then
      -- setting changed, check if actually available
      let available : Option Bool :=
        if timeDomain then m.parentTrace.map (fun t => t.TDRactive) else some true
      match available with
      | none => none
      | some false =>
        some (m, w.emit (.warning "Attempted to enable TDR marker on trace without active TDR"))
      | some true =>
        let m := { m with timeDomain := timeDomain }
        let changed : Option (TraceMarker × World) :=
          if timeDomain then
            -- need to delete this marker if the TDR data of the trace is no longer available
            match m.parentTrace with
            | none => none
            | some parentTrace =>
              let w := w.emit (.connectTDRstate parentTrace.ptr m.self)
              -- check if current type still supported
              if m.type ∉ m.getSupportedTypes then
                -- unsupported type, change to manual
                TraceMarker.setType fuel env .Manual m w
              else some (m, w)
          else
            some (m, w.emit (.disconnectTDRstate (m.parentTrace.map Trace.ptr)))
        match changed with
        | none => none
        | some (m, w) => some (m, w.emit (.timeDomainChanged m.self))
    else some (m, w)

/-- `TraceMarker::assignTrace(t)`. -/
def TraceMarker.assignTrace :
    Nat → Env → Option Trace → TraceMarker → World → Option (TraceMarker × World)
  | 0, _, _, _, _ => none
  | fuel + 1, env, t, m, w =>
    let w := match m.parentTrace with
      | some parentTrace =>
        -- remove connection from previous parent trace
        (w.emit (.removeMarker parentTrace.ptr m.self)).emit
          (.disconnectTrace parentTrace.ptr m.self)
      | none => w
    match TraceMarker.setTimeDomain fuel env false m w with
    | none => none
    | some (m, w) =>
      let m := { m with parentTrace := t }
      let retyped : Option (TraceMarker × World) :=
        if m.type ∉ m.getSupportedTypes then
          -- new trace does not support the current type
          TraceMarker.setType fuel env .Manual m w
        else some (m, w)
      match retyped with
      | none => none
      | some (m, w) =>
        let w := w.emit (.connectTrace (m.parentTrace.map Trace.ptr) m.self)
        match TraceMarker.constrainPosition fuel env m w with
        | none => none
        | some (m, w) =>
          match m.updateSymbol w with
          | none => none
          | some (m, w) =>
            match m.parentTrace with
            | none => none
            | some parentTrace =>
              let w := w.emit (.addMarker parentTrace.ptr m.self)
              let helpers : Option (List TraceMarker × World) :=
                m.helperMarkers.foldlM
                  (TraceMarker.assignHelper (TraceMarker.assignTrace fuel env t)) ([], w)
              match helpers with
              | none => none
              | some (helperMarkers, w) =>
                let m := { m with helperMarkers := helperMarkers }
                match TraceMarker.update fuel env m w with
                | none => none
                | some (m, w) => some (m, w.emit (.traceChanged m.self))

/-- `TraceMarker::setType(t)`. -/
def TraceMarker.setType :
    Nat → Env → MarkerType → TraceMarker → World → Option (TraceMarker × World)
  | 0, _, _, _, _ => none
  | fuel + 1, env, t, m, w =>
    let started := m.beginSetType env t w
    let required_helpers := requiredHelpers started.1.type
    -- create helper markers
    match required_helpers.foldlM (TraceMarker.createHelper env (TraceMarker.assignTrace fuel env)
        (TraceMarker.setType fuel env)) started with
    | none => none
    | some (m, w) =>
      match m.updateSymbol w with
      | none => none
      | some (m, w) =>
        let w := w.emit (.typeChanged m.self)
        TraceMarker.update fuel env m w

end

/-! ## Reference definitions for the marker claims -/

/-- The special VNA marker types of `TraceMarker::getSupportedTypes`. -/
def vnaSpecialTypes : Finset MarkerType := {.Lowpass, .Highpass, .Bandpass}

/-- The special SA marker types of `TraceMarker::getSupportedTypes`. -/
def saSpecialTypes : Finset MarkerType := {.Noise, .TOI, .PhaseNoise}

/-- The reference definition of the supported marker types: nothing without a
parent trace, the two basic types in time domain, and in frequency domain the
five basic types plus the special types of a live VNA or SA trace. -/
def TraceMarker.supportedTypesReference (m : TraceMarker) : Finset MarkerType :=
  match m.parentTrace with
  | none => ∅
  | some t =>
    if m.timeDomain then {.Manual, .Delta}
    else
      ({.Manual, .Maximum, .Minimum, .Delta, .PeakTable} : Finset MarkerType)
      ∪ (if t.isLive = true ∧ t.liveParameter ∈ [LiveParameter.S11, .S12, .S21, .S22]
          then vnaSpecialTypes else ∅)
      ∪ (if t.isLive = true ∧ t.liveParameter ∈ [LiveParameter.Port1, .Port2]
          then saSpecialTypes else ∅)

/-! ## The virtual device (`virtualdevice.h`)

The header declares the data members and the member functions of
`VirtualDevice`; the functions are defined in `virtualdevice.cpp`. -/

/-- The member `Limits` of `VirtualDevice::Info`. -/
structure Limits where
  minFreq : Rat
  maxFreq : Rat
  maxFreqHarmonic : Rat
  minIFBW : Rat
  maxIFBW : Rat
  maxPoints : Nat
  mindBm : Rat
  maxdBm : Rat
  minRBW : Rat
  maxRBW : Rat
  deriving DecidableEq, Repr

/-- The class `VirtualDevice::Info`. -/
structure Info where
  ProtocolVersion : Nat
  FW_major : Nat
  FW_minor : Nat
  FW_patch : Nat
  hardware_version : Nat
  HW_Revision : Char
  ports : Int
  supportsVNAmode : Bool
  supportsSAmode : Bool
  supportsSGmode : Bool
  supportsExtRef : Bool
  Limits : Limits
  deriving DecidableEq, Repr

/-- The class `VirtualDevice::Status`. -/
structure Status where
  statusString : String
  overload : Bool
  unlocked : Bool
  unlevel : Bool
  extRef : Bool
  deriving DecidableEq, Repr

/-- The class `VirtualDevice::VNASettings`; `excitedPorts` counts ports from one. -/
structure VNASettings where
  freqStart : Rat
  freqStop : Rat
  dBmStart : Rat
  dBmStop : Rat
  IFBW : Rat
  points : Int
  logSweep : Bool
  excitedPorts : List Int
  deriving DecidableEq, Repr

/-- The class `VirtualDevice::VNAMeasurement`; in a zero span measurement the
member `us` of the union takes the place of `frequency`. -/
structure VNAMeasurement where
  pointNum : Nat
  Z0 : Rat
  frequency : Rat
  dBm : Rat
  measurements : List (String × Complex64)
  deriving DecidableEq, Repr

/-- Modelled from the spec: the raw per-device transmission result
`Protocol::VNADatapoint<32>`, whose declaration is missing. Spec §3 and §4.2:
a frame with the point index, the physical frequency or time and up to 32
complex sub-measurements, tagged with the stage index on arrival. -/
structure VNADatapoint where
  stage : Nat
  pointNum : Nat
  frequency : Rat
  values : List (String × Complex64)
  deriving DecidableEq, Repr

/-- A `std::map<int, int>` as an association list with one entry per key. -/
abbrev PortStageMap := List (Int × Nat)

/-- The assignment `map[key] = stage` of a `std::map`. -/
def mapAssign (key : Int) (stage : Nat) : PortStageMap → PortStageMap
  | [] => [(key, stage)]
  | (k, v) :: rest =>
    if key = k then (key, stage) :: rest else (k, v) :: mapAssign key stage rest

/-- Modelled from the spec: the construction of `portStageMapping`, which is
part of `VirtualDevice::setVNA` in the missing `virtualdevice.cpp`. Spec §3 and
§4.3: a mapping from the excited-port number (1-based, caller-visible) to the
stage index (0-based), with one entry per requested port holding the stage that
excites it; the selection of the stage (`stageFor`), whose tie-break rule the
spec leaves open, is a parameter. -/
def buildPortStageMapping (stageFor : List Int → Int → Nat) (excitedPorts : List Int) :
    PortStageMap :=
  excitedPorts.foldl
    (fun mapping port => mapAssign port (stageFor excitedPorts port) mapping) []

/-- The keys of a port-stage map. -/
def PortStageMap.keys (mapping : PortStageMap) : List Int := mapping.map Prod.fst

/-- An excited-port set is valid for a device when it names each port once and
every port number lies between one and the port count of `Info`. -/
def validExcitedPorts (info : Info) (excitedPorts : List Int) : Prop :=
  excitedPorts.Nodup ∧ ∀ p ∈ excitedPorts, 1 ≤ p ∧ p ≤ info.ports

/-- The member `compoundDataBuffer`, a `std::map<int, std::vector<VNADatapoint<32>*>>`:
per point index the raw results received so far. -/
abbrev DataBuffer := List (Nat × List VNADatapoint)

/-- The lookup `compoundDataBuffer.find(pointNum)`. -/
def DataBuffer.entry (buffer : DataBuffer) (pointNum : Nat) : Option (List VNADatapoint) :=
  (buffer.find? (fun e => e.1 = pointNum)).map Prod.snd

/-- The call `compoundDataBuffer.erase(pointNum)`. -/
def DataBuffer.erase (buffer : DataBuffer) (pointNum : Nat) : DataBuffer :=
  buffer.filter (fun e => e.1 ≠ pointNum)

/-- The assignment `compoundDataBuffer[pointNum] = frames`. -/
def DataBuffer.assign (buffer : DataBuffer) (pointNum : Nat) (frames : List VNADatapoint) :
    DataBuffer :=
  (pointNum, frames) :: buffer.erase pointNum

/-- The state of the fusion engine: the stage buffer and, per stage, the last
point index that stage delivered. -/
structure FusionState where
  compoundDataBuffer : DataBuffer
  lastPoint : List (Nat × Nat)
  deriving DecidableEq, Repr

/-- The fusion engine before the first raw result. -/
def FusionState.empty : FusionState := ⟨[], []⟩

/-- What the receipt of one raw result produces: the next state, the fused
measurement handed to `VNAmeasurementReceived` if there is one, and whether the
frame was discarded as a protocol violation. -/
structure FusionStep where
  state : FusionState
  emitted : Option VNAMeasurement
  violation : Bool
  deriving DecidableEq, Repr

/-- A frame regresses when its stage has already delivered a later point index. -/
def FusionState.regresses (st : FusionState) (frame : VNADatapoint) : Bool :=
  match st.lastPoint.find? (fun e => e.1 = frame.stage) with
  | some e => decide (frame.pointNum < e.2)
  | none => false

/-- Modelled from the spec: the receipt of one raw stage result by the fusion
buffer, a slot of the missing `virtualdevice.cpp`. Spec §4.4 and §7: a frame
whose point index regresses within its stage and a frame for a stage that is
already buffered for its point are discarded; otherwise the frame is recorded
under its point index, and once every stage `required` by the active
configuration is present the entry is fused (`compose` stands for the
S-parameter composition and interpolation), discarded and emitted. -/
def FusionState.receive (compose : List VNADatapoint → VNAMeasurement) (required : List Nat)
    (st : FusionState) (frame : VNADatapoint) : FusionStep :=
  if st.regresses frame then
    ⟨st, none, true⟩
  else
    let collected := (st.compoundDataBuffer.entry frame.pointNum).getD []
    if frame.stage ∈ collected.map VNADatapoint.stage then
      ⟨st, none, true⟩
    else
      let collected := collected ++ [frame]
      let lastPoint :=
        (frame.stage, frame.pointNum) :: st.lastPoint.filter (fun e => e.1 ≠ frame.stage)
      if ∀ s ∈ required, s ∈ collected.map VNADatapoint.stage then
        ⟨⟨st.compoundDataBuffer.erase frame.pointNum, lastPoint⟩,
          some { compose collected with pointNum := frame.pointNum }, false⟩
      else
        ⟨⟨st.compoundDataBuffer.assign frame.pointNum collected, lastPoint⟩, none, false⟩

/-- Feed a sequence of raw results to the fusion buffer: the final state and
the fused measurements in the order of their emission. -/
def FusionState.run (compose : List VNADatapoint → VNAMeasurement) (required : List Nat) :
    FusionState → List VNADatapoint → FusionState × List VNAMeasurement
  | st, [] => (st, [])
  | st, frame :: rest =>
    let step := st.receive compose required frame
    let (final, out) := FusionState.run compose required step.state rest
    (final, step.emitted.toList ++ out)

/-- Every raw result in the stage buffer is filed under its own point index
and is one of the raw results received so far. -/
def FusionState.Sound (st : FusionState) (received : List VNADatapoint) : Prop :=
  ∀ e ∈ st.compoundDataBuffer, ∀ g ∈ e.2, g.pointNum = e.1 ∧ g ∈ received

/-- A command sent to a backing device. -/
inductive DeviceCommand where
  | configureVNA (device : Nat) (settings : VNASettings)
  deriving DecidableEq, Repr

/-- The data members of the class `VirtualDevice`. -/
structure VirtualDevice where
  info : Info
  status : Status
  isCompound : Bool
  devices : List Nat
  zerospan : Bool
  compoundDataBuffer : DataBuffer
  portStageMapping : PortStageMap
  deriving DecidableEq, Repr

/-- What a call of `setVNA` produces: the return value, the device afterwards
and the commands sent to the backing devices. -/
structure SetResult where
  accepted : Bool
  device : VirtualDevice
  sent : List DeviceCommand
  deriving DecidableEq, Repr

/-- The bounds of `Info.Limits` on a VNA configuration. -/
def VNASettings.withinLimits (s : VNASettings) (l : Limits) : Bool :=
  decide (l.minFreq ≤ s.freqStart) && decide (s.freqStop ≤ l.maxFreq) &&
  decide (l.minIFBW ≤ s.IFBW) && decide (s.IFBW ≤ l.maxIFBW) &&
  decide (s.points ≤ (l.maxPoints : Int)) &&
  decide (l.mindBm ≤ s.dBmStart) && decide (s.dBmStop ≤ l.maxdBm)

/-- Modelled from the spec: `VirtualDevice::setVNA`, defined in the missing
`virtualdevice.cpp`. Spec §4.1, §4.2 and §4.4: the settings are validated
against `Info.Limits` and the supported modes and rejected at once, with no
effect, when they fail; otherwise the port-stage map is rebuilt, the buffered
points are abandoned and every backing device is sent its command. -/
def VirtualDevice.setVNA (stageFor : List Int → Int → Nat) (vd : VirtualDevice)
    (s : VNASettings) : SetResult :=
  if !vd.info.supportsVNAmode then
    ⟨false, vd, []⟩
  else if !s.withinLimits vd.info.Limits then
    ⟨false, vd, []⟩
  else
    ⟨true,
      { vd with
        zerospan := decide (s.freqStart = s.freqStop)
        portStageMapping := buildPortStageMapping stageFor s.excitedPorts
        compoundDataBuffer := [] },
      vd.devices.map (fun d => DeviceCommand.configureVNA d s)⟩

/-! ## Well-formed markers -/

/-- The marker types for which `TraceMarker::update()` has nothing to do. -/
def NoOp (t : MarkerType) : Prop := t = .Manual ∨ t = .Delta ∨ t = .Noise

/-- A helper marker as `setType` and `update` create them: of type manual or
noise, without helpers of its own, in frequency domain. -/
def TraceMarker.Simple (h : TraceMarker) : Prop :=
  (h.type = .Manual ∨ h.type = .Noise) ∧ h.helperMarkers = [] ∧ h.timeDomain = false

/-- A marker is well formed when it has the helper markers that `setType`
creates for its type (`update()` indexes them) and every helper is simple. -/
def TraceMarker.WellFormed (m : TraceMarker) : Prop :=
  (requiredHelpers m.type).length ≤ m.helperMarkers.length ∧
  ∀ h ∈ m.helperMarkers, h.Simple

/-- What the member functions that move a marker keep: type, domain and parent
trace, the helper list of a marker whose type needs no update, and well-formedness. -/
def TraceMarker.Kept (m m' : TraceMarker) : Prop :=
  m'.type = m.type ∧ m'.timeDomain = m.timeDomain ∧ m'.parentTrace = m.parentTrace ∧
  (NoOp m.type → m'.helperMarkers = m.helperMarkers) ∧
  (m.WellFormed → m'.WellFormed)

/-- The marker types the trace `t` supports for the marker `m` in frequency domain. -/
def TraceMarker.supportedOn (m : TraceMarker) (t : Option Trace) : Finset MarkerType :=
  ({ m with timeDomain := false, parentTrace := t } : TraceMarker).getSupportedTypes

/-- What `assignTrace(t)` establishes. -/
def TraceMarker.Assigned (t : Option Trace) (m m' : TraceMarker) : Prop :=
  m'.parentTrace = t ∧ m'.timeDomain = false ∧
  (m.type ∈ m.supportedOn t → m'.type = m.type) ∧
  (m.type ∉ m.supportedOn t → m'.type = .Manual) ∧
  (NoOp m.type → m.helperMarkers = [] → m'.helperMarkers = []) ∧
  (m.WellFormed → m'.WellFormed)

/-- What `setType(t)` establishes. -/
def TraceMarker.Typed (t : MarkerType) (m m' : TraceMarker) : Prop :=
  m'.type = t ∧ m'.timeDomain = m.timeDomain ∧ m'.parentTrace = m.parentTrace ∧
  (NoOp t → m'.helperMarkers = []) ∧ m'.WellFormed

/-- The specification of the mutually recursive member functions at one amount of fuel. -/
structure MemberSpec (fuel : Nat) : Prop where
  setPosition : ∀ env pos m w r, TraceMarker.setPosition fuel env pos m w = some r → m.Kept r.1
  constrainPosition : ∀ env m w r, TraceMarker.constrainPosition fuel env m w = some r → m.Kept r.1
  traceDataChanged : ∀ env m w r, TraceMarker.traceDataChanged fuel env m w = some r → m.Kept r.1
  update : ∀ env m w r, TraceMarker.update fuel env m w = some r → m.Kept r.1
  assignTrace : ∀ env t m w r, TraceMarker.assignTrace fuel env t m w = some r → m.Assigned t r.1
  setType : ∀ env t m w r, TraceMarker.setType fuel env t m w = some r → m.Typed t r.1

/-- What the cases of the switch in `update()` keep: type, domain, parent trace
and well-formedness. -/
def TraceMarker.Moved (m m' : TraceMarker) : Prop :=
  m'.type = m.type ∧ m'.timeDomain = m.timeDomain ∧ m'.parentTrace = m.parentTrace ∧
  (m.WellFormed → m'.WellFormed)

/-- A live S21 trace of three samples with active TDR. -/
def exampleTrace : Trace :=
  { ptr := 1, size := 3, TDRactive := true, isLive := true, liveParameter := .S21,
    isReflection := false, color := 0, maxFreq := 10, minFreq := 0,
    getTDR := [⟨0, 0, 0, 0, 50⟩], getTDRat := fun _ => ⟨0, 0, 0, 0, 50⟩,
    getData := fun p => (p, 0), findExtremumFreq := fun maximum => if maximum then 5 else 2,
    findPeakFrequencies := fun _ _ => [1, 7], index := fun _ => 1,
    sample := fun i => ⟨i, (i, 0)⟩ }

/-- A trace without samples. -/
def emptyTrace : Trace := { exampleTrace with ptr := 2, size := 0 }

/-- The surroundings of the example markers: a model with one marker. -/
def exampleEnv : Env :=
  { getMarkers := [⟨100, false, some 1⟩], decibel := fun c => c.1, uninitTimeDomain := false,
    uninitTimeData := ⟨0, 0, 0, 0, 0⟩, uninitPeakThreshold := -40, uninitOffset := 10 }

/-- A maximum marker in frequency domain on the example trace. -/
def exampleMarker : TraceMarker :=
  { TraceMarker.new exampleEnv 100 1 none "" with
    parentTrace := some exampleTrace, timeDomain := false, type := .Maximum }

/-- A low pass marker on the empty trace. -/
def emptyTraceMarker : TraceMarker :=
  { TraceMarker.new exampleEnv 100 1 none "" with
    parentTrace := some emptyTrace, timeDomain := false, type := .Lowpass }

/-- A helper marker: a marker with a parent marker. -/
def exampleHelper : TraceMarker := TraceMarker.new exampleEnv 101 1 (some 100) "cutoff"

/-- The world before the example calls. -/
def exampleWorld : World := ⟨200, []⟩

/-- The info of a two-port device with the frequency range 100 kHz to 6 GHz. -/
def exampleInfo : Info :=
  ⟨12, 1, 5, 0, 1, 'B', 2, true, true, true, true,
    ⟨100000, 6000000000, 18000000000, 10, 50000, 4501, -40, 0, 1, 100000⟩⟩

/-- A virtual device with one backing device. -/
def exampleDevice : VirtualDevice :=
  ⟨exampleInfo, ⟨"", false, false, false, false⟩, false, [7], false, [], []⟩

/-- VNA settings whose start frequency lies below the minimum frequency. -/
def belowMinSettings : VNASettings := ⟨50000, 1000000, -10, -10, 1000, 501, false, [1, 2]⟩

/-- The stage selection that gives the port `p`, counted from one, the stage `p - 1`. -/
def stagePerPort : List Int → Int → Nat := fun _ p => (p - 1).toNat

/-- A raw result of stage `stage` for point 5. -/
def pointFive (stage : Nat) : VNADatapoint := ⟨stage, 5, 1000000, []⟩

/-- A composition that keeps only the number of fused frames. -/
def countFrames (frames : List VNADatapoint) : VNAMeasurement :=
  ⟨0, 50, 0, 0, [("frames", ((frames.length : Rat), 0))]⟩

/-! # Theorems -/

/-! ## Trace markers: what the member functions keep -/

theorem kept_refl (m : TraceMarker) : m.Kept m := ⟨rfl, rfl, rfl, fun _ => rfl, id⟩

theorem kept_trans {a b c : TraceMarker} (h1 : a.Kept b) (h2 : b.Kept c) : a.Kept c :=
  ⟨h2.1.trans h1.1, h2.2.1.trans h1.2.1, h2.2.2.1.trans h1.2.2.1,
   fun hn => (h2.2.2.2.1 (by rw [h1.1]; exact hn)).trans (h1.2.2.2.1 hn),
   fun hw => h2.2.2.2.2 (h1.2.2.2.2 hw)⟩

theorem memberSpec_zero : MemberSpec 0 where
  setPosition := by intro env pos m w r h; simp [TraceMarker.setPosition] at h
  constrainPosition := by intro env m w r h; simp [TraceMarker.constrainPosition] at h
  traceDataChanged := by intro env m w r h; simp [TraceMarker.traceDataChanged] at h
  update := by intro env m w r h; simp [TraceMarker.update] at h
  assignTrace := by intro env t m w r h; simp [TraceMarker.assignTrace] at h
  setType := by intro env t m w r h; simp [TraceMarker.setType] at h

theorem setPosition_step (n : Nat) (ih : MemberSpec n) (env : Env) (pos : Rat) (m : TraceMarker)
    (w : World) (r : TraceMarker × World)
    (h : TraceMarker.setPosition (n + 1) env pos m w = some r) : m.Kept r.1 := by
  rw [TraceMarker.setPosition] at h
  have := ih.constrainPosition _ _ _ _ h
  exact kept_trans (a := m) ⟨rfl, rfl, rfl, fun _ => rfl, id⟩ this

theorem kept_of_fields {m m' : TraceMarker} (ht : m'.type = m.type)
    (hd : m'.timeDomain = m.timeDomain) (hp : m'.parentTrace = m.parentTrace)
    (hh : m'.helperMarkers = m.helperMarkers) : m.Kept m' :=
  ⟨ht, hd, hp, fun _ => hh, fun hw => by
    unfold TraceMarker.WellFormed at *
    rw [ht, hh]
    exact hw⟩

theorem simple_kept {h h' : TraceMarker} (hs : h.Simple) (hk : h.Kept h') : h'.Simple := by
  obtain ⟨ht, hh, hd⟩ := hs
  have hn : NoOp h.type := by
    rcases ht with ht | ht
    · exact Or.inl ht
    · exact Or.inr (Or.inr ht)
  exact ⟨by rw [hk.1]; exact ht, by rw [hk.2.2.2.1 hn]; exact hh, by rw [hk.2.1]; exact hd⟩

theorem clampPosition_kept (m m1 : TraceMarker) (t : Trace)
    (h : m.clampPosition t = some m1) : m.Kept m1 := by
  unfold TraceMarker.clampPosition at h
  split at h
  · split at h
    · cases h; exact kept_of_fields rfl rfl rfl rfl
    · split at h
      · cases h
      · split at h <;> cases h <;> exact kept_of_fields rfl rfl rfl rfl
  · split at h
    · split at h
      · cases h; exact kept_of_fields rfl rfl rfl rfl
      · split at h <;> cases h <;> exact kept_of_fields rfl rfl rfl rfl
    · cases h; exact kept_of_fields rfl rfl rfl rfl

theorem constrainPosition_step (n : Nat) (ih : MemberSpec n) (env : Env) (m : TraceMarker)
    (w : World) (r : TraceMarker × World)
    (h : TraceMarker.constrainPosition (n + 1) env m w = some r) : m.Kept r.1 := by
  rw [TraceMarker.constrainPosition] at h
  cases hp : m.parentTrace with
  | none =>
    simp only [hp, Option.some.injEq] at h
    subst h
    exact kept_refl m
  | some t =>
    simp only [hp] at h
    cases hc : m.clampPosition t with
    | none => simp [hc] at h
    | some m1 =>
      simp only [hc] at h
      exact kept_trans (clampPosition_kept m m1 t hc) (ih.traceDataChanged _ _ _ _ h)

theorem readTrace_kept (m : TraceMarker) (t : Trace) : m.Kept (m.readTrace t).1 := by
  unfold TraceMarker.readTrace
  split <;> exact kept_of_fields rfl rfl rfl rfl

theorem traceDataChanged_step (n : Nat) (ih : MemberSpec n) (env : Env) (m : TraceMarker)
    (w : World) (r : TraceMarker × World)
    (h : TraceMarker.traceDataChanged (n + 1) env m w = some r) : m.Kept r.1 := by
  rw [TraceMarker.traceDataChanged] at h
  cases hp : m.parentTrace with
  | none => simp [hp] at h
  | some t =>
    simp only [hp] at h
    have hk1 := readTrace_kept m t
    generalize m.readTrace t = read at h hk1
    by_cases hd : read.2 ≠ read.1.data
    · rw [if_pos hd] at h
      cases hu : TraceMarker.update n env { read.1 with data := read.2 } w with
      | none => simp [hu] at h
      | some r2 =>
        simp only [hu, Option.some.injEq] at h
        subst h
        have hk2 := ih.update _ _ _ _ hu
        exact kept_trans hk1 (kept_trans (b := { read.1 with data := read.2 })
          (kept_of_fields rfl rfl rfl rfl) hk2)
    · rw [if_neg hd] at h
      cases h
      exact hk1

theorem moved_refl (m : TraceMarker) : m.Moved m := ⟨rfl, rfl, rfl, id⟩

theorem moved_trans {a b c : TraceMarker} (h1 : a.Moved b) (h2 : b.Moved c) : a.Moved c :=
  ⟨h2.1.trans h1.1, h2.2.1.trans h1.2.1, h2.2.2.1.trans h1.2.2.1,
   fun hw => h2.2.2.2 (h1.2.2.2 hw)⟩

theorem kept_moved {m m' : TraceMarker} (h : m.Kept m') : m.Moved m' :=
  ⟨h.1, h.2.1, h.2.2.1, h.2.2.2.2⟩

theorem moved_kept_of_not_noOp {m m' : TraceMarker} (h : m.Moved m') (hn : ¬ NoOp m.type) :
    m.Kept m' :=
  ⟨h.1, h.2.1, h.2.2.1, fun hc => absurd hc hn, h.2.2.2⟩

theorem foldlM_option_invariant {α β : Type} (f : β → α → Option β) (P : β → Prop)
    (l : List α) (hf : ∀ b a b', a ∈ l → P b → f b a = some b' → P b') :
    ∀ b b', P b → l.foldlM f b = some b' → P b' := by
  induction l with
  | nil =>
    intro b b' hb h
    simp only [List.foldlM_nil, pure, Option.some.injEq] at h
    subst h
    exact hb
  | cons a l ih =>
    intro b b' hb h
    simp only [List.foldlM_cons, bind, Option.bind] at h
    cases hfa : f b a with
    | none => simp [hfa] at h
    | some b1 =>
      simp only [hfa] at h
      exact ih (fun b a' b' ha' => hf b a' b' (List.mem_cons_of_mem _ ha')) b1 b'
        (hf b a b1 (List.mem_cons_self _ _) hb hfa) h

theorem foldlM_option_count {α β : Type} (f : β → α → Option β) (len : β → Nat)
    (hf : ∀ b a b', f b a = some b' → len b' = len b + 1) (l : List α) :
    ∀ b b', l.foldlM f b = some b' → len b' = len b + l.length := by
  induction l with
  | nil =>
    intro b b' h
    simp only [List.foldlM_nil, pure, Option.some.injEq] at h
    subst h
    simp
  | cons a l ih =>
    intro b b' h
    simp only [List.foldlM_cons, bind, Option.bind] at h
    cases hfa : f b a with
    | none => simp [hfa] at h
    | some b1 =>
      simp only [hfa] at h
      rw [ih b1 b' h, hf b a b1 hfa, List.length_cons]
      omega

theorem withHelper_moved (m : TraceMarker) (i : Nat)
    (f : TraceMarker → World → Option (TraceMarker × World)) (w : World)
    (r : TraceMarker × World) (hf : ∀ h w r, f h w = some r → h.Kept r.1)
    (h : m.withHelper i f w = some r) : m.Moved r.1 := by
  unfold TraceMarker.withHelper at h
  cases hg : m.helperMarkers[i]? with
  | none => simp [hg] at h
  | some helper =>
    simp only [hg] at h
    cases hfh : f helper w with
    | none => simp [hfh] at h
    | some r1 =>
      obtain ⟨helper1, w1⟩ := r1
      simp only [hfh, Option.some.injEq] at h
      subst h
      refine ⟨rfl, rfl, rfl, fun hw => ⟨?_, ?_⟩⟩
      · simpa using hw.1
      · intro x hx
        rcases List.mem_or_eq_of_mem_set hx with hx | hx
        · exact hw.2 x hx
        · subst hx
          exact simple_kept (hw.2 helper (List.getElem?_mem hg)) (hf _ _ _ hfh)

theorem updateCutoff_moved (m : TraceMarker) (env : Env)
    (setPos : Rat → TraceMarker → World → Option (TraceMarker × World)) (t : Trace) (w : World)
    (r : TraceMarker × World) (hsp : ∀ pos h w r, setPos pos h w = some r → h.Kept r.1)
    (h : m.updateCutoff env setPos t w = some r) : m.Moved r.1 := by
  unfold TraceMarker.updateCutoff at h
  by_cases hr : t.isReflection = true
  · rw [if_pos hr] at h
    cases h
    exact moved_refl m
  · rw [if_neg hr] at h
    cases h1 : setPos (t.findExtremumFreq true) m w with
    | none => simp [h1] at h
    | some r1 =>
      obtain ⟨m1, w1⟩ := r1
      simp only [h1] at h
      exact moved_trans (kept_moved (hsp _ _ _ _ h1)) (withHelper_moved _ _ _ _ _ (hsp _) h)

theorem updatePhaseNoise_moved (m : TraceMarker)
    (setPos : Rat → TraceMarker → World → Option (TraceMarker × World)) (t : Trace) (w : World)
    (r : TraceMarker × World) (hsp : ∀ pos h w r, setPos pos h w = some r → h.Kept r.1)
    (h : m.updatePhaseNoise setPos t w = some r) : m.Moved r.1 := by
  unfold TraceMarker.updatePhaseNoise at h
  cases h1 : setPos (t.findExtremumFreq true) m w with
  | none => simp [h1] at h
  | some r1 =>
    obtain ⟨m1, w1⟩ := r1
    simp only [h1] at h
    exact moved_trans (kept_moved (hsp _ _ _ _ h1)) (withHelper_moved _ _ _ _ _ (hsp _) h)

theorem updateTOI_moved (m : TraceMarker)
    (setPos : Rat → TraceMarker → World → Option (TraceMarker × World)) (t : Trace) (w : World)
    (r : TraceMarker × World) (hsp : ∀ pos h w r, setPos pos h w = some r → h.Kept r.1)
    (h : m.updateTOI setPos t w = some r) : m.Moved r.1 := by
  unfold TraceMarker.updateTOI at h
  split at h
  · rename_i peak0 peak1 _
    cases h0 : m.withHelper 0 (setPos peak0) w with
    | none => simp [h0] at h
    | some r0 =>
      obtain ⟨m0, w0⟩ := r0
      simp only [h0] at h
      cases h1 : m0.withHelper 1 (setPos peak1) w0 with
      | none => simp [h1] at h
      | some r1 =>
        obtain ⟨m1, w1⟩ := r1
        simp only [h1] at h
        cases h2 : m1.withHelper 2 (setPos (peak0 - (peak1 - peak0))) w1 with
        | none => simp [h2] at h
        | some r2 =>
          obtain ⟨m2, w2⟩ := r2
          simp only [h2] at h
          exact moved_trans (withHelper_moved _ _ _ _ _ (hsp _) h0)
            (moved_trans (withHelper_moved _ _ _ _ _ (hsp _) h1)
              (moved_trans (withHelper_moved _ _ _ _ _ (hsp _) h2)
                (withHelper_moved _ _ _ _ _ (hsp _) h)))
  · cases h
    exact moved_refl m

theorem updateBandpass_moved (m : TraceMarker) (env : Env)
    (setPos : Rat → TraceMarker → World → Option (TraceMarker × World)) (t : Trace) (w : World)
    (r : TraceMarker × World) (hsp : ∀ pos h w r, setPos pos h w = some r → h.Kept r.1)
    (h : m.updateBandpass env setPos t w = some r) : m.Moved r.1 := by
  unfold TraceMarker.updateBandpass at h
  by_cases hr : t.isReflection = true
  · rw [if_pos hr] at h
    cases h
    exact moved_refl m
  · rw [if_neg hr] at h
    cases h1 : setPos (t.findExtremumFreq true) m w with
    | none => simp [h1] at h
    | some r1 =>
      obtain ⟨m1, w1⟩ := r1
      simp only [h1] at h
      generalize hlow : (t.sample _).frequency = lowFreq at h
      cases h2 : m1.withHelper 0 (setPos lowFreq) w1 with
      | none => simp [h2] at h
      | some r2 =>
        obtain ⟨m2, w2⟩ := r2
        simp only [h2] at h
        generalize hhigh : (t.sample _).frequency = highFreq at h
        cases h3 : m2.withHelper 1 (setPos highFreq) w2 with
        | none => simp [h3] at h
        | some r3 =>
          obtain ⟨m3, w3⟩ := r3
          simp only [h3] at h
          split at h
          · exact moved_trans (kept_moved (hsp _ _ _ _ h1))
              (moved_trans (withHelper_moved _ _ _ _ _ (hsp _) h2)
                (moved_trans (withHelper_moved _ _ _ _ _ (hsp _) h3)
                  (withHelper_moved _ _ _ _ _ (hsp _) h)))
          · cases h

theorem assigned_simple {t : Option Trace} {h h' : TraceMarker}
    (ht : h.type = .Manual ∨ h.type = .Noise) (hh : h.helperMarkers = [])
    (ha : h.Assigned t h') : h'.Simple := by
  obtain ⟨_, htd, hsup, hnot, hhelp, _⟩ := ha
  have hn : NoOp h.type := by
    rcases ht with ht | ht
    · exact Or.inl ht
    · exact Or.inr (Or.inr ht)
  refine ⟨?_, hhelp hn hh, htd⟩
  by_cases hs : h.type ∈ h.supportedOn t
  · rw [hsup hs]; exact ht
  · exact Or.inl (hnot hs)

theorem addPeakHelper_invariant (env : Env)
    (assign : Option Trace → TraceMarker → World → Option (TraceMarker × World))
    (setPos : Rat → TraceMarker → World → Option (TraceMarker × World)) (t : Trace)
    (hassign : ∀ t h w r, assign t h w = some r → h.Assigned t r.1)
    (hsp : ∀ pos h w r, setPos pos h w = some r → h.Kept r.1)
    (m : TraceMarker) (acc : TraceMarker × World) (p : Rat) (acc' : TraceMarker × World)
    (hacc : acc.1.type = m.type ∧ acc.1.timeDomain = m.timeDomain ∧
      acc.1.parentTrace = m.parentTrace ∧ ∀ h ∈ acc.1.helperMarkers, h.Simple)
    (h : TraceMarker.addPeakHelper env assign setPos t acc p = some acc') :
    acc'.1.type = m.type ∧ acc'.1.timeDomain = m.timeDomain ∧
      acc'.1.parentTrace = m.parentTrace ∧ ∀ h ∈ acc'.1.helperMarkers, h.Simple := by
  unfold TraceMarker.addPeakHelper World.newTraceMarker at h
  simp only at h
  generalize hh0 : ({ TraceMarker.new env acc.2.nextPtr acc.1.number (some acc.1.self) "" with
    suffix := peakSuffix acc.1.helperMarkers.length } : TraceMarker) = helper0 at h
  have ht0 : helper0.type = .Manual := by rw [← hh0]; rfl
  have hl0 : helper0.helperMarkers = [] := by rw [← hh0]; rfl
  cases h1 : assign (some t) helper0 { acc.2 with nextPtr := acc.2.nextPtr + 1 } with
  | none => simp [h1] at h
  | some r1 =>
    obtain ⟨helper1, w1⟩ := r1
    simp only [h1] at h
    have hs1 : helper1.Simple := assigned_simple (Or.inl ht0) hl0 (hassign _ _ _ _ h1)
    cases h2 : setPos p helper1 w1 with
    | none => simp [h2] at h
    | some r2 =>
      obtain ⟨helper2, w2⟩ := r2
      simp only [h2, Option.some.injEq] at h
      subst h
      refine ⟨hacc.1, hacc.2.1, hacc.2.2.1, ?_⟩
      intro x hx
      simp only [List.mem_append, List.mem_singleton] at hx
      rcases hx with hx | hx
      · exact hacc.2.2.2 x hx
      · subst hx
        exact simple_kept hs1 (hsp _ _ _ _ h2)

theorem updatePeakTable_moved (m : TraceMarker) (env : Env)
    (assign : Option Trace → TraceMarker → World → Option (TraceMarker × World))
    (setPos : Rat → TraceMarker → World → Option (TraceMarker × World)) (t : Trace) (w : World)
    (r : TraceMarker × World)
    (hassign : ∀ t h w r, assign t h w = some r → h.Assigned t r.1)
    (hsp : ∀ pos h w r, setPos pos h w = some r → h.Kept r.1)
    (hty : m.type = .PeakTable)
    (h : m.updatePeakTable env assign setPos t w = some r) : m.Moved r.1 := by
  unfold TraceMarker.updatePeakTable at h
  simp only at h
  have hinv := foldlM_option_invariant (TraceMarker.addPeakHelper env assign setPos t)
    (fun acc => acc.1.type = m.type ∧ acc.1.timeDomain = m.timeDomain ∧
      acc.1.parentTrace = m.parentTrace ∧ ∀ h ∈ acc.1.helperMarkers, h.Simple)
    _ (fun b a b' _ hb hf => addPeakHelper_invariant env assign setPos t hassign hsp m b a b' hb hf)
    _ r ⟨rfl, rfl, rfl, by simp [TraceMarker.deleteHelperMarkers]⟩ h
  refine ⟨hinv.1, hinv.2.1, hinv.2.2.1, fun _ => ⟨?_, hinv.2.2.2⟩⟩
  rw [hinv.1, hty]
  simp [requiredHelpers]

theorem update_step (n : Nat) (ih : MemberSpec n) (env : Env) (m : TraceMarker)
    (w : World) (r : TraceMarker × World)
    (h : TraceMarker.update (n + 1) env m w = some r) : m.Kept r.1 := by
  rw [TraceMarker.update] at h
  cases hp : m.parentTrace with
  | none => simp [hp] at h
  | some t =>
    simp only [hp] at h
    by_cases hsz : t.size = 0
    · rw [if_pos hsz] at h
      cases h
      exact kept_refl m
    · rw [if_neg hsz] at h
      have hsp := ih.setPosition env
      have key : ∀ sw : Option (TraceMarker × World),
          (∀ r1, sw = some r1 → m.Kept r1.1) →
          (match sw with
            | none => none
            | some (m, w) => some (m, w.emit (.dataChanged m.self))) = some r → m.Kept r.1 := by
        intro sw hsw hm
        cases sw with
        | none => simp at hm
        | some r1 =>
          obtain ⟨m1, w1⟩ := r1
          simp only [Option.some.injEq] at hm
          subst hm
          exact hsw (m1, w1) rfl
      refine key _ ?_ h
      intro r1 hr1
      cases hty : m.type <;> simp only [hty] at hr1
      · cases hr1; exact kept_refl m
      · exact hsp _ _ _ _ hr1
      · exact hsp _ _ _ _ hr1
      · cases hr1; exact kept_refl m
      · cases hr1; exact kept_refl m
      · exact moved_kept_of_not_noOp
          (updatePeakTable_moved m env _ _ t w r1 (ih.assignTrace env) hsp hty hr1)
          (by simp [NoOp, hty])
      · exact moved_kept_of_not_noOp (updateCutoff_moved m env _ t w r1 hsp hr1)
          (by simp [NoOp, hty])
      · exact moved_kept_of_not_noOp (updateCutoff_moved m env _ t w r1 hsp hr1)
          (by simp [NoOp, hty])
      · exact moved_kept_of_not_noOp (updateBandpass_moved m env _ t w r1 hsp hr1)
          (by simp [NoOp, hty])
      · exact moved_kept_of_not_noOp (updateTOI_moved m _ t w r1 hsp hr1)
          (by simp [NoOp, hty])
      · exact moved_kept_of_not_noOp (updatePhaseNoise_moved m _ t w r1 hsp hr1)
          (by simp [NoOp, hty])

theorem updateSymbol_kept (m : TraceMarker) (w : World) (r : TraceMarker × World)
    (h : m.updateSymbol w = some r) : m.Kept r.1 := by
  unfold TraceMarker.updateSymbol at h
  split at h
  · split at h
    · cases h
    · cases h; exact kept_of_fields rfl rfl rfl rfl
  · cases h; exact kept_of_fields rfl rfl rfl rfl

theorem assignDeltaMarker_kept (m : TraceMarker) (partner : Option Nat) (w : World) :
    m.Kept (m.assignDeltaMarker partner w).1 := by
  unfold TraceMarker.assignDeltaMarker
  simp only
  split
  · split <;> exact kept_of_fields rfl rfl rfl rfl
  · exact kept_of_fields rfl rfl rfl rfl

theorem findDelta_kept (m : TraceMarker) (env : Env) (w : World) :
    m.Kept (m.findDelta env w).1 := by
  have h0 : m.Kept { m with delta := none } := kept_of_fields rfl rfl rfl rfl
  unfold TraceMarker.findDelta
  simp only
  split
  · exact kept_trans h0 (assignDeltaMarker_kept _ _ _)
  · split
    · exact kept_trans h0 (assignDeltaMarker_kept _ _ _)
    · split
      · exact kept_trans h0 (assignDeltaMarker_kept _ _ _)
      · exact h0

theorem beginSetType_fields (m : TraceMarker) (env : Env) (t : MarkerType) (w : World) :
    (m.beginSetType env t w).1.type = t ∧
    (m.beginSetType env t w).1.timeDomain = m.timeDomain ∧
    (m.beginSetType env t w).1.parentTrace = m.parentTrace ∧
    (m.beginSetType env t w).1.helperMarkers = [] := by
  by_cases hD : t = .Delta
  · subst hD
    have hk := findDelta_kept
      { (m.deleteHelperMarkers w).1 with type := .Delta } env (m.deleteHelperMarkers w).2
    have hn : NoOp ({ (m.deleteHelperMarkers w).1 with type := .Delta } : TraceMarker).type :=
      Or.inr (Or.inl rfl)
    exact ⟨hk.1, hk.2.1, hk.2.2.1, hk.2.2.2.1 hn⟩
  · cases t <;> first | exact absurd rfl hD | exact ⟨rfl, rfl, rfl, rfl⟩

theorem requiredHelpers_types (t : MarkerType) :
    ∀ h ∈ requiredHelpers t, h.type = .Manual ∨ h.type = .Noise := by
  cases t <;> simp [requiredHelpers]

theorem createHelper_invariant (env : Env)
    (assign : Option Trace → TraceMarker → World → Option (TraceMarker × World))
    (setTy : MarkerType → TraceMarker → World → Option (TraceMarker × World))
    (hassign : ∀ t h w r, assign t h w = some r → h.Assigned t r.1)
    (hset : ∀ t h w r, setTy t h w = some r → h.Typed t r.1)
    (m : TraceMarker) (acc : TraceMarker × World) (d : HelperDescr) (acc' : TraceMarker × World)
    (hd : d.type = .Manual ∨ d.type = .Noise)
    (hacc : acc.1.type = m.type ∧ acc.1.timeDomain = m.timeDomain ∧
      acc.1.parentTrace = m.parentTrace ∧ ∀ h ∈ acc.1.helperMarkers, h.Simple)
    (h : TraceMarker.createHelper env assign setTy acc d = some acc') :
    (acc'.1.type = m.type ∧ acc'.1.timeDomain = m.timeDomain ∧
      acc'.1.parentTrace = m.parentTrace ∧ ∀ h ∈ acc'.1.helperMarkers, h.Simple) ∧
    acc'.1.helperMarkers.length = acc.1.helperMarkers.length + 1 := by
  unfold TraceMarker.createHelper World.newTraceMarker at h
  simp only at h
  generalize hh0 : ({ TraceMarker.new env acc.2.nextPtr acc.1.number (some acc.1.self)
    d.description with suffix := d.suffix } : TraceMarker) = helper0 at h
  have ht0 : helper0.type = .Manual := by rw [← hh0]; rfl
  have hl0 : helper0.helperMarkers = [] := by rw [← hh0]; rfl
  cases h1 : assign acc.1.parentTrace helper0 { acc.2 with nextPtr := acc.2.nextPtr + 1 } with
  | none => simp [h1] at h
  | some r1 =>
    obtain ⟨helper1, w1⟩ := r1
    simp only [h1] at h
    have hs1 : helper1.Simple := assigned_simple (Or.inl ht0) hl0 (hassign _ _ _ _ h1)
    cases h2 : setTy d.type helper1 w1 with
    | none => simp [h2] at h
    | some r2 =>
      obtain ⟨helper2, w2⟩ := r2
      simp only [h2, Option.some.injEq] at h
      subst h
      have hty := hset _ _ _ _ h2
      have hn : NoOp d.type := by
        rcases hd with hd | hd
        · exact Or.inl hd
        · exact Or.inr (Or.inr hd)
      have hs2 : helper2.Simple :=
        ⟨by rw [hty.1]; exact hd, hty.2.2.2.1 hn, by rw [hty.2.1]; exact hs1.2.2⟩
      refine ⟨⟨hacc.1, hacc.2.1, hacc.2.2.1, ?_⟩, by simp⟩
      intro x hx
      simp only [List.mem_append, List.mem_singleton] at hx
      rcases hx with hx | hx
      · exact hacc.2.2.2 x hx
      · subst hx
        exact hs2

theorem setType_step (n : Nat) (ih : MemberSpec n) (env : Env) (t : MarkerType)
    (m : TraceMarker) (w : World) (r : TraceMarker × World)
    (h : TraceMarker.setType (n + 1) env t m w = some r) : m.Typed t r.1 := by
  rw [TraceMarker.setType] at h
  simp only at h
  obtain ⟨hbt, hbd, hbp, hbh⟩ := beginSetType_fields m env t w
  generalize m.beginSetType env t w = started at h hbt hbd hbp hbh
  rw [hbt] at h
  cases hc : (requiredHelpers t).foldlM (TraceMarker.createHelper env
      (TraceMarker.assignTrace n env) (TraceMarker.setType n env)) started with
  | none => simp [hc] at h
  | some r1 =>
    obtain ⟨m1, w1⟩ := r1
    simp only [hc] at h
    have hinv := foldlM_option_invariant _
      (fun acc : TraceMarker × World => acc.1.type = started.1.type ∧
        acc.1.timeDomain = started.1.timeDomain ∧
        acc.1.parentTrace = started.1.parentTrace ∧ ∀ h ∈ acc.1.helperMarkers, h.Simple)
      (requiredHelpers t)
      (fun b a b' ha hb hf => (createHelper_invariant env _ _ (ih.assignTrace env)
        (ih.setType env) started.1 b a b' (requiredHelpers_types t a ha) hb hf).1)
      started (m1, w1) ⟨rfl, rfl, rfl, by simp [hbh]⟩ hc
    have hcount := foldlM_option_count _
      (fun acc : TraceMarker × World => acc.1.helperMarkers.length)
      (fun b a b' hf => by
        unfold TraceMarker.createHelper at hf
        simp only at hf
        split at hf
        · cases hf
        · split at hf
          · cases hf
          · cases hf; simp)
      (requiredHelpers t) started (m1, w1) hc
    simp only [hbh, List.length_nil, Nat.zero_add] at hcount
    simp only at hinv
    have hw1 : m1.WellFormed := ⟨by rw [hinv.1, hbt, hcount], hinv.2.2.2⟩
    have hh1 : NoOp t → m1.helperMarkers = [] := by
      intro hn
      apply List.eq_nil_of_length_eq_zero
      rw [hcount]
      rcases hn with hn | hn | hn <;> simp [hn, requiredHelpers]
    cases hu : m1.updateSymbol w1 with
    | none => simp [hu] at h
    | some r2 =>
      obtain ⟨m2, w2⟩ := r2
      simp only [hu] at h
      have hk2 := updateSymbol_kept _ _ _ hu
      have hk3 := ih.update _ _ _ _ h
      have hk := kept_trans hk2 hk3
      have hty1 : m1.type = t := by rw [hinv.1, hbt]
      refine ⟨by rw [hk.1, hty1], by rw [hk.2.1, hinv.2.1, hbd], by rw [hk.2.2.1, hinv.2.2.1, hbp],
        fun hn => ?_, hk.2.2.2.2 hw1⟩
      rw [hk.2.2.2.1 (by rw [hty1]; exact hn)]
      exact hh1 hn

theorem setTimeDomain_false (fuel : Nat) (env : Env) (m : TraceMarker) (w : World)
    (r : TraceMarker × World) (h : TraceMarker.setTimeDomain fuel env false m w = some r) :
    r.1.timeDomain = false ∧ r.1.type = m.type ∧ r.1.parentTrace = m.parentTrace ∧
    r.1.helperMarkers = m.helperMarkers := by
  cases fuel with
  | zero => simp [TraceMarker.setTimeDomain] at h
  | succ n =>
    rw [TraceMarker.setTimeDomain] at h
    by_cases hd : false ≠ m.timeDomain
    · rw [if_pos hd] at h
      simp only [Bool.false_eq_true, if_false, Option.some.injEq] at h
      subst h
      exact ⟨rfl, rfl, rfl, rfl⟩
    · rw [if_neg hd] at h
      cases h
      simp only [ne_eq, Decidable.not_not] at hd
      exact ⟨hd.symm, rfl, rfl, rfl⟩

theorem getSupportedTypes_congr (a b : TraceMarker) (hp : a.parentTrace = b.parentTrace)
    (hd : a.timeDomain = b.timeDomain) : a.getSupportedTypes = b.getSupportedTypes := by
  unfold TraceMarker.getSupportedTypes
  rw [hp, hd]

theorem assignHelper_fold (assign : TraceMarker → World → Option (TraceMarker × World))
    (t : Option Trace) (hassign : ∀ h w r, assign h w = some r → h.Assigned t r.1)
    (hs : List TraceMarker) :
    ∀ (acc r : List TraceMarker × World),
      hs.foldlM (TraceMarker.assignHelper assign) acc = some r →
      r.1.length = acc.1.length + hs.length ∧
      ((∀ h ∈ acc.1, h.Simple) → (∀ h ∈ hs, h.Simple) → ∀ h ∈ r.1, h.Simple) := by
  induction hs with
  | nil =>
    intro acc r h
    simp only [List.foldlM_nil, pure, Option.some.injEq] at h
    subst h
    exact ⟨by simp, fun ha _ => ha⟩
  | cons x hs ih =>
    intro acc r h
    simp only [List.foldlM_cons, bind, Option.bind] at h
    cases hx : TraceMarker.assignHelper assign acc x with
    | none => simp [hx] at h
    | some acc1 =>
      simp only [hx] at h
      obtain ⟨hlen, hsimple⟩ := ih acc1 r h
      unfold TraceMarker.assignHelper at hx
      cases ha : assign x acc.2 with
      | none => simp [ha] at hx
      | some r1 =>
        obtain ⟨x1, w1⟩ := r1
        simp only [ha, Option.some.injEq] at hx
        subst hx
        refine ⟨by rw [hlen]; simp; omega, fun hacc hall => hsimple ?_ ?_⟩
        · intro y hy
          simp only [List.mem_append, List.mem_singleton] at hy
          rcases hy with hy | hy
          · exact hacc y hy
          · subst hy
            have hxs := hall x (List.mem_cons_self _ _)
            exact assigned_simple hxs.1 hxs.2.1 (hassign _ _ _ ha)
        · exact fun y hy => hall y (List.mem_cons_of_mem _ hy)

theorem assignTrace_step (n : Nat) (ih : MemberSpec n) (env : Env) (t : Option Trace)
    (m : TraceMarker) (w : World) (r : TraceMarker × World)
    (h : TraceMarker.assignTrace (n + 1) env t m w = some r) : m.Assigned t r.1 := by
  rw [TraceMarker.assignTrace] at h
  simp only at h
  generalize (match m.parentTrace with
    | some parentTrace =>
      (w.emit (.removeMarker parentTrace.ptr m.self)).emit
        (.disconnectTrace parentTrace.ptr m.self)
    | none => w) = w0 at h
  cases h1 : TraceMarker.setTimeDomain n env false m w0 with
  | none => simp [h1] at h
  | some r1 =>
    obtain ⟨m1, w1⟩ := r1
    simp only [h1] at h
    obtain ⟨hd1, ht1, _, hh1⟩ := setTimeDomain_false _ _ _ _ _ h1
    simp only at hd1 ht1 hh1
    have hsup : ({ m1 with parentTrace := t } : TraceMarker).getSupportedTypes =
        m.supportedOn t :=
      getSupportedTypes_congr _ _ rfl hd1
    rw [hsup] at h
    -- the marker after the type check
    have hre : ∀ r3 : TraceMarker × World,
        (if ({ m1 with parentTrace := t } : TraceMarker).type ∉ m.supportedOn t then
          TraceMarker.setType n env .Manual { m1 with parentTrace := t } w1
         else some ({ m1 with parentTrace := t }, w1)) = some r3 →
        r3.1.parentTrace = t ∧ r3.1.timeDomain = false ∧
        (m.type ∈ m.supportedOn t → r3.1.type = m.type) ∧
        (m.type ∉ m.supportedOn t → r3.1.type = .Manual) ∧
        (NoOp m.type → m.helperMarkers = [] → r3.1.helperMarkers = []) ∧
        (m.WellFormed → r3.1.WellFormed) := by
      intro r3 h3
      by_cases hs : m.type ∈ m.supportedOn t
      · have hc : ¬ (({ m1 with parentTrace := t } : TraceMarker).type ∉ m.supportedOn t) := by
          show ¬ (m1.type ∉ _)
          rw [ht1]
          exact not_not.mpr hs
        rw [if_neg hc] at h3
        cases h3
        refine ⟨rfl, hd1, fun _ => ht1, fun hn => absurd hs hn, fun _ he => hh1.trans he, ?_⟩
        intro hw
        unfold TraceMarker.WellFormed at *
        simp only [ht1, hh1]
        exact hw
      · have hc : ({ m1 with parentTrace := t } : TraceMarker).type ∉ m.supportedOn t := by
          show m1.type ∉ _
          rw [ht1]
          exact hs
        rw [if_pos hc] at h3
        have hty3 := ih.setType _ _ _ _ _ h3
        exact ⟨hty3.2.2.1, hty3.2.1.trans hd1, fun hn => absurd hn hs, fun _ => hty3.1,
          fun _ _ => hty3.2.2.2.1 (Or.inl rfl), fun _ => hty3.2.2.2.2⟩
    generalize (if ({ m1 with parentTrace := t } : TraceMarker).type ∉ m.supportedOn t then
          TraceMarker.setType n env .Manual { m1 with parentTrace := t } w1
         else some ({ m1 with parentTrace := t }, w1)) = retyped at h hre
    cases retyped with
    | none => simp at h
    | some r3 =>
      obtain ⟨m3, w3⟩ := r3
      obtain ⟨hp3, hd3, hsup3, hnot3, hh3, hw3⟩ := hre _ rfl
      simp only at hp3 hd3 hsup3 hnot3 hh3 hw3 h
      cases h4 : TraceMarker.constrainPosition n env m3
          (w3.emit (.connectTrace (m3.parentTrace.map Trace.ptr) m3.self)) with
      | none => simp [h4] at h
      | some r4 =>
        obtain ⟨m4, w4⟩ := r4
        simp only [h4] at h
        have hk4 := ih.constrainPosition _ _ _ _ h4
        cases h5 : m4.updateSymbol w4 with
        | none => simp [h5] at h
        | some r5 =>
          obtain ⟨m5, w5⟩ := r5
          simp only [h5] at h
          have hk5 := kept_trans hk4 (updateSymbol_kept _ _ _ h5)
          simp only at hk5
          cases hp5 : m5.parentTrace with
          | none => simp [hp5] at h
          | some pt =>
            simp only [hp5] at h
            cases h6 : m5.helperMarkers.foldlM
                (TraceMarker.assignHelper (TraceMarker.assignTrace n env t))
                ([], w5.emit (.addMarker pt.ptr m5.self)) with
            | none => simp [h6] at h
            | some r6 =>
              obtain ⟨hs6, w6⟩ := r6
              simp only [h6] at h
              obtain ⟨hlen6, hsimple6⟩ := assignHelper_fold _ t
                (fun h w r => ih.assignTrace env t h w r) _ _ _ h6
              simp only [List.length_nil, Nat.zero_add] at hlen6
              generalize h7 : TraceMarker.update n env _ w6 = updated at h
              cases updated with
              | none => simp at h
              | some r7 =>
                obtain ⟨m7, w7⟩ := r7
                simp only [Option.some.injEq] at h
                subst h
                have hk7 := ih.update _ _ _ _ h7
                simp only at hk7
                have hp7 : m7.parentTrace = m5.parentTrace := hk7.2.2.1.trans hp5.symm
                have hty7 : m7.type = m3.type := by rw [hk7.1]; exact hk5.1
                have hnoop3 : NoOp m.type → NoOp m3.type := by
                  intro hn
                  by_cases hs : m.type ∈ m.supportedOn t
                  · rw [hsup3 hs]; exact hn
                  · rw [hnot3 hs]; exact Or.inl rfl
                refine ⟨?_, ?_, ?_, ?_, ?_, ?_⟩
                · rw [hp7]; exact hk5.2.2.1.trans hp3
                · rw [hk7.2.1]; exact hk5.2.1.trans hd3
                · intro hs; rw [hty7]; exact hsup3 hs
                · intro hs; rw [hty7]; exact hnot3 hs
                · intro hn he
                  have h5e : m5.helperMarkers = [] := by
                    rw [hk5.2.2.2.1 (hnoop3 hn)]; exact hh3 hn he
                  have h6e : hs6 = [] := by
                    apply List.eq_nil_of_length_eq_zero
                    rw [hlen6, h5e]; rfl
                  rw [hk7.2.2.2.1 (by show NoOp m5.type; rw [hk5.1]; exact hnoop3 hn)]
                  exact h6e
                · intro hw
                  have hw5 : m5.WellFormed := hk5.2.2.2.2 (hw3 hw)
                  apply hk7.2.2.2.2
                  exact ⟨by show _ ≤ hs6.length; rw [hlen6]; exact hw5.1,
                    hsimple6 (by simp) hw5.2⟩

theorem memberSpec (fuel : Nat) : MemberSpec fuel := by
  induction fuel with
  | zero => exact memberSpec_zero
  | succ n ih =>
    exact ⟨fun env pos m w r => setPosition_step n ih env pos m w r,
      fun env m w r => constrainPosition_step n ih env m w r,
      fun env m w r => traceDataChanged_step n ih env m w r,
      fun env m w r => update_step n ih env m w r,
      fun env t m w r => assignTrace_step n ih env t m w r,
      fun env t m w r => setType_step n ih env t m w r⟩

/-! ## Trace markers: the member functions return -/

theorem update_noOp (n : Nat) (env : Env) (m : TraceMarker) (w : World) (t : Trace)
    (hn : NoOp m.type) (hp : m.parentTrace = some t) :
    ∃ w', TraceMarker.update (n + 1) env m w = some (m, w') := by
  rw [TraceMarker.update]
  simp only [hp]
  by_cases hsz : t.size = 0
  · rw [if_pos hsz]
    exact ⟨w, rfl⟩
  · rw [if_neg hsz]
    rcases hn with hn | hn | hn <;> simp only [hn] <;> exact ⟨_, rfl⟩

theorem updateSymbol_total (m : TraceMarker) (w : World) (t : Trace)
    (hp : m.parentTrace = some t) : ∃ r, m.updateSymbol w = some r := by
  unfold TraceMarker.updateSymbol
  split
  · simp only [hp]
    exact ⟨_, rfl⟩
  · exact ⟨_, rfl⟩

theorem setType_manual_total (n : Nat) (env : Env) (m : TraceMarker) (w : World) (t : Trace)
    (hp : m.parentTrace = some t) :
    ∃ r, TraceMarker.setType (n + 2) env .Manual m w = some r := by
  rw [TraceMarker.setType]
  simp only
  obtain ⟨hbt, hbd, hbp, hbh⟩ := beginSetType_fields m env .Manual w
  generalize m.beginSetType env .Manual w = started at hbt hbd hbp hbh
  rw [hbt]
  simp only [requiredHelpers, List.foldlM_nil, pure]
  obtain ⟨r1, h1⟩ := updateSymbol_total started.1 started.2 t (hbp.trans hp)
  rw [h1]
  obtain ⟨m1, w1⟩ := r1
  have hk := updateSymbol_kept _ _ _ h1
  simp only
  obtain ⟨w', hu⟩ := update_noOp n env m1 (w1.emit (.typeChanged m1.self)) t
    (by rw [hk.1, hbt]; exact Or.inl rfl) (by rw [hk.2.2.1, hbp, hp])
  exact ⟨_, hu⟩

theorem setTimeDomain_wellFormed (fuel : Nat) (env : Env) (timeDomain : Bool) (m : TraceMarker)
    (w : World) (r : TraceMarker × World) (hw : m.WellFormed)
    (h : TraceMarker.setTimeDomain fuel env timeDomain m w = some r) : r.1.WellFormed := by
  cases fuel with
  | zero => simp [TraceMarker.setTimeDomain] at h
  | succ n =>
    rw [TraceMarker.setTimeDomain] at h
    by_cases hne : timeDomain ≠ m.timeDomain
    · rw [if_pos hne] at h
      cases timeDomain with
      | false =>
        simp only [Bool.false_eq_true, if_false, Option.some.injEq] at h
        subst h
        exact hw
      | true =>
        simp only [if_true] at h
        cases hp : m.parentTrace with
        | none => simp [hp] at h
        | some t =>
          simp only [hp, Option.map_some'] at h
          cases hact : t.TDRactive with
          | false =>
            simp only [hact, Option.some.injEq] at h
            subst h
            exact hw
          | true =>
            simp only [hact] at h
            split at h
            · cases h
            · rename_i m2 w2 hc
              cases h
              split at hc
              · exact ((memberSpec n).setType _ _ _ _ _ hc).2.2.2.2
              · cases hc
                exact hw
    · rw [if_neg hne] at h
      cases h
      exact hw

/-- Every marker the member functions produce is well formed: a new marker is,
`setType` returns one, and `setTimeDomain`, `assignTrace`, `setPosition` and
`update` keep a marker well formed. -/
theorem wellFormed_invariant (fuel : Nat) (env : Env) (m : TraceMarker) (w : World)
    (r : TraceMarker × World) :
    (∀ self number parent descr, (TraceMarker.new env self number parent descr).WellFormed) ∧
    (∀ t, TraceMarker.setType fuel env t m w = some r → r.1.WellFormed) ∧
    (m.WellFormed →
      (∀ td, TraceMarker.setTimeDomain fuel env td m w = some r → r.1.WellFormed) ∧
      (∀ t, TraceMarker.assignTrace fuel env t m w = some r → r.1.WellFormed) ∧
      (∀ pos, TraceMarker.setPosition fuel env pos m w = some r → r.1.WellFormed) ∧
      (TraceMarker.update fuel env m w = some r → r.1.WellFormed)) := by
  refine ⟨fun self number parent descr => ⟨by simp [TraceMarker.new, requiredHelpers], ?_⟩,
    fun t h => ((memberSpec fuel).setType _ _ _ _ _ h).2.2.2.2, fun hw => ⟨?_, ?_, ?_, ?_⟩⟩
  · intro h hh
    simp [TraceMarker.new] at hh
  · exact fun td h => setTimeDomain_wellFormed fuel env td m w r hw h
  · exact fun t h => ((memberSpec fuel).assignTrace _ _ _ _ _ h).2.2.2.2.2 hw
  · exact fun pos h => ((memberSpec fuel).setPosition _ _ _ _ _ h).2.2.2.2 hw
  · exact fun h => ((memberSpec fuel).update _ _ _ _ h).2.2.2.2 hw

/-! ## The claims on `tracemarker.cpp` -/

theorem getSupportedTypes_timeDomain (m : TraceMarker) (t : Trace)
    (hp : m.parentTrace = some t) (hd : m.timeDomain = true) :
    m.getSupportedTypes = {.Manual, .Delta} := by
  unfold TraceMarker.getSupportedTypes
  simp only [hp, hd, if_true]
  decide

/-- C5: `getSupportedTypes` equals the reference definition for every marker:
empty without parent trace, exactly manual and delta in time domain, in
frequency domain the five basic types plus exactly the VNA types for a live
S-parameter trace and exactly the SA types for a live port trace; and it never
holds both a special VNA and a special SA type. -/
theorem getSupportedTypes_eq_reference (m : TraceMarker) :
    m.getSupportedTypes = m.supportedTypesReference ∧
    ¬ ((∃ t ∈ vnaSpecialTypes, t ∈ m.getSupportedTypes) ∧
       (∃ t ∈ saSpecialTypes, t ∈ m.getSupportedTypes)) := by
  rcases m with ⟨self, ef, pt, pos, num, data, sym, ty, suf, descr, td, tdata, delta, hs, par,
    ca, pth, off⟩
  cases pt with
  | none => simp [TraceMarker.getSupportedTypes, TraceMarker.supportedTypesReference]
  | some t =>
    rcases t with ⟨ptr, size, tdr, live, lp, refl, col, maxF, minF, gt, gta, gd, fe, fp, ix, sa⟩
    cases td <;> cases live <;> cases lp <;>
      (simp [TraceMarker.getSupportedTypes, TraceMarker.supportedTypesReference,
        vnaSpecialTypes, saSpecialTypes]; try decide)

/-- C6: for a frequency domain marker whose parent trace has active TDR,
`setTimeDomain(true)` returns (three units of fuel are enough), the marker is
then in time domain, its type is one of the types supported in time domain
(manual and delta), it is the previous type if that was manual or delta and
manual otherwise. -/
theorem setTimeDomain_true_supported (fuel : Nat) (env : Env) (m : TraceMarker) (t : Trace)
    (w : World) (hFreq : m.timeDomain = false) (hTrace : m.parentTrace = some t)
    (hTDR : t.TDRactive = true) :
    ∃ m' w', TraceMarker.setTimeDomain (fuel + 3) env true m w = some (m', w') ∧
      m'.isTimeDomain = true ∧
      m'.getSupportedTypes = {.Manual, .Delta} ∧
      m'.type ∈ m'.getSupportedTypes ∧
      (m.type = .Manual ∨ m.type = .Delta → m'.type = m.type) ∧
      (¬ (m.type = .Manual ∨ m.type = .Delta) → m'.type = .Manual) := by
  have hsup : ({ m with timeDomain := true } : TraceMarker).getSupportedTypes =
      {.Manual, .Delta} := getSupportedTypes_timeDomain _ t hTrace rfl
  rw [TraceMarker.setTimeDomain]
  rw [if_pos (by rw [hFreq]; decide)]
  simp only [if_true, hTrace, Option.map_some', hTDR]
  rw [show ({ m with timeDomain := true, parentTrace := some t } : TraceMarker).getSupportedTypes
      = {.Manual, .Delta} from getSupportedTypes_timeDomain _ t rfl rfl]
  by_cases hty : m.type = .Manual ∨ m.type = .Delta
  · rw [if_neg (by
      simp only [Finset.mem_insert, Finset.mem_singleton, not_not]
      exact hty)]
    refine ⟨_, _, rfl, rfl, getSupportedTypes_timeDomain _ t rfl rfl, ?_, fun _ => rfl,
      fun h => absurd hty h⟩
    rw [getSupportedTypes_timeDomain _ t rfl rfl]
    simp only [Finset.mem_insert, Finset.mem_singleton]
    exact hty
  · rw [if_pos (by
      simp only [Finset.mem_insert, Finset.mem_singleton]
      exact hty)]
    generalize hS : TraceMarker.setType _ _ _ _ _ = typed
    obtain ⟨r, hr⟩ : ∃ r, typed = some r := by
      rw [← hS]
      exact setType_manual_total fuel env _ _ t rfl
    obtain ⟨m1, w1⟩ := r
    have hspec := (memberSpec _).setType _ _ _ _ _ (hS.trans hr)
    simp only at hspec
    rw [hr]
    have hsup1 : m1.getSupportedTypes = {.Manual, .Delta} :=
      getSupportedTypes_timeDomain _ t hspec.2.2.1 hspec.2.1
    refine ⟨_, _, rfl, hspec.2.1, hsup1, ?_, fun h => absurd h hty, fun _ => hspec.1⟩
    rw [hsup1, hspec.1]
    decide

/-- C6 at a maximum marker on a trace with active TDR. -/
theorem setTimeDomain_true_supported_witness :
    exampleMarker.timeDomain = false ∧ exampleMarker.parentTrace = some exampleTrace ∧
    exampleTrace.TDRactive = true ∧
    ∃ m' w', TraceMarker.setTimeDomain 3 exampleEnv true exampleMarker exampleWorld
        = some (m', w') ∧
      m'.isTimeDomain = true ∧
      m'.getSupportedTypes = {.Manual, .Delta} ∧
      m'.type ∈ m'.getSupportedTypes ∧
      (exampleMarker.type = .Manual ∨ exampleMarker.type = .Delta →
        m'.type = exampleMarker.type) ∧
      (¬ (exampleMarker.type = .Manual ∨ exampleMarker.type = .Delta) → m'.type = .Manual) :=
  ⟨rfl, rfl, rfl,
    setTimeDomain_true_supported 0 exampleEnv exampleMarker exampleTrace exampleWorld rfl rfl rfl⟩

/-- C8: helper markers are never movable: with a parent marker `isMovable()` is
false whatever the type; without one it is true exactly for the types manual,
delta and noise. -/
theorem isMovable_iff (m : TraceMarker) :
    (m.parent ≠ none → m.isMovable = false) ∧
    (m.parent = none →
      (m.isMovable = true ↔ m.type = .Manual ∨ m.type = .Delta ∨ m.type = .Noise)) := by
  rcases m with ⟨self, ef, pt, pos, num, data, sym, ty, suf, descr, td, tdata, delta, hs, par,
    ca, pth, off⟩
  cases par with
  | none => cases ty <;> simp [TraceMarker.isMovable]
  | some p => simp [TraceMarker.isMovable]

/-- C8 at a helper marker and at a top-level maximum marker. -/
theorem isMovable_iff_witness :
    exampleHelper.parent ≠ none ∧ exampleHelper.isMovable = false ∧
    exampleMarker.parent = none ∧
    (exampleMarker.isMovable = true ↔
      exampleMarker.type = .Manual ∨ exampleMarker.type = .Delta ∨
        exampleMarker.type = .Noise) :=
  ⟨by decide, (isMovable_iff exampleHelper).1 (by decide), rfl,
    (isMovable_iff exampleMarker).2 rfl⟩

/-- C9: `update()` on a marker whose parent trace is empty does nothing, whatever
the marker type: the call returns with the marker unchanged (position, data,
type, cutoffAmplitude, delta partner, helper markers and every other member)
and the world unchanged, so no `dataChanged` and no other signal is emitted. -/
theorem update_empty_trace (fuel : Nat) (env : Env) (m : TraceMarker) (w : World) (t : Trace)
    (hTrace : m.parentTrace = some t) (hEmpty : t.size = 0) :
    TraceMarker.update (fuel + 1) env m w = some (m, w) := by
  simp [TraceMarker.update, hTrace, hEmpty]

/-- C9 at a low pass marker on the empty trace. -/
theorem update_empty_trace_witness :
    emptyTraceMarker.parentTrace = some emptyTrace ∧ emptyTrace.size = 0 ∧
    TraceMarker.update 1 exampleEnv emptyTraceMarker exampleWorld
      = some (emptyTraceMarker, exampleWorld) :=
  ⟨rfl, rfl, update_empty_trace 0 exampleEnv emptyTraceMarker exampleWorld emptyTrace rfl rfl⟩

/-! ## The port-stage map -/

theorem mapAssign_keys_mem (key : Int) (stage : Nat) (mapping : PortStageMap) (k : Int) :
    k ∈ (mapAssign key stage mapping).keys ↔ k = key ∨ k ∈ mapping.keys := by
  induction mapping with
  | nil => simp [mapAssign, PortStageMap.keys]
  | cons e rest ih =>
    obtain ⟨k', v'⟩ := e
    by_cases h : key = k'
    · subst h
      simp [mapAssign, PortStageMap.keys]
    · simp only [PortStageMap.keys] at ih
      simp [mapAssign, PortStageMap.keys, h, ih]
      tauto

theorem mapAssign_keys_nodup (key : Int) (stage : Nat) (mapping : PortStageMap)
    (h : mapping.keys.Nodup) : (mapAssign key stage mapping).keys.Nodup := by
  induction mapping with
  | nil => simp [mapAssign, PortStageMap.keys]
  | cons e rest ih =>
    obtain ⟨k', v'⟩ := e
    have hk : k' ∉ PortStageMap.keys rest := by
      simpa [PortStageMap.keys] using (List.nodup_cons.mp h).1
    have hrest : (PortStageMap.keys rest).Nodup := by
      simpa [PortStageMap.keys] using (List.nodup_cons.mp h).2
    by_cases hkey : key = k'
    · subst hkey
      simpa [mapAssign, PortStageMap.keys] using h
    · have hmem := mapAssign_keys_mem key stage rest k'
      have hnot : k' ∉ (mapAssign key stage rest).keys := by
        rw [hmem]
        rintro (h1 | h1)
        · exact hkey h1.symm
        · exact hk h1
      have := List.nodup_cons.mpr ⟨hnot, ih hrest⟩
      simpa [mapAssign, PortStageMap.keys, hkey] using this

theorem foldl_mapAssign_keys (g : Int → Nat) (ports : List Int) (init : PortStageMap) (k : Int) :
    k ∈ (ports.foldl (fun mapping port => mapAssign port (g port) mapping) init).keys ↔
      k ∈ init.keys ∨ k ∈ ports := by
  induction ports generalizing init with
  | nil => simp
  | cons p rest ih =>
    simp only [List.foldl_cons, ih, mapAssign_keys_mem, List.mem_cons]
    tauto

theorem foldl_mapAssign_nodup (g : Int → Nat) (ports : List Int) (init : PortStageMap)
    (h : init.keys.Nodup) :
    (ports.foldl (fun mapping port => mapAssign port (g port) mapping) init).keys.Nodup := by
  induction ports generalizing init with
  | nil => simpa using h
  | cons p rest ih =>
    simp only [List.foldl_cons]
    exact ih _ (mapAssign_keys_nodup _ _ _ h)

theorem keys_nodup_unique (mapping : PortStageMap) (h : mapping.keys.Nodup) (k : Int)
    (s1 s2 : Nat) (h1 : (k, s1) ∈ mapping) (h2 : (k, s2) ∈ mapping) : s1 = s2 := by
  induction mapping with
  | nil => simp at h1
  | cons e rest ih =>
    obtain ⟨k', v'⟩ := e
    have hk : k' ∉ PortStageMap.keys rest := by
      simpa [PortStageMap.keys] using (List.nodup_cons.mp h).1
    have hrest : (PortStageMap.keys rest).Nodup := by
      simpa [PortStageMap.keys] using (List.nodup_cons.mp h).2
    have key_of_mem : ∀ s, (k, s) ∈ rest → k ∈ PortStageMap.keys rest := by
      intro s hs
      simp only [PortStageMap.keys, List.mem_map]
      exact ⟨(k, s), hs, rfl⟩
    rcases List.mem_cons.mp h1 with e1 | e1 <;> rcases List.mem_cons.mp h2 with e2 | e2
    · simp only [Prod.mk.injEq] at e1 e2
      omega
    · simp only [Prod.mk.injEq] at e1
      exact absurd (e1.1 ▸ key_of_mem s2 e2) hk
    · simp only [Prod.mk.injEq] at e2
      exact absurd (e2.1 ▸ key_of_mem s1 e1) hk
    · exact ih hrest e1 e2

/-- C2: for every valid excited-port set (port numbers counted from one) the
key set of the port-stage map built for it is exactly the set of requested port
numbers, every key lies between one and the port count, every requested port is
mapped to exactly one stage index (a natural number, counted from zero), and
building the map again from the same inputs gives the same map. -/
theorem portStageMapping_covers_requested_ports (stageFor : List Int → Int → Nat) (info : Info)
    (excitedPorts : List Int) (hValid : validExcitedPorts info excitedPorts) :
    (∀ k : Int, k ∈ (buildPortStageMapping stageFor excitedPorts).keys ↔ k ∈ excitedPorts) ∧
    (∀ k ∈ (buildPortStageMapping stageFor excitedPorts).keys, 1 ≤ k ∧ k ≤ info.ports) ∧
    (buildPortStageMapping stageFor excitedPorts).keys.Nodup ∧
    (∀ p ∈ excitedPorts, ∃! stage : Nat,
        (p, stage) ∈ buildPortStageMapping stageFor excitedPorts) ∧
    (∀ again : List Int, again = excitedPorts →
        buildPortStageMapping stageFor again = buildPortStageMapping stageFor excitedPorts) := by
  have hkeys : ∀ k : Int, k ∈ (buildPortStageMapping stageFor excitedPorts).keys ↔
      k ∈ excitedPorts := by
    intro k
    unfold buildPortStageMapping
    rw [foldl_mapAssign_keys (stageFor excitedPorts) excitedPorts [] k]
    simp [PortStageMap.keys]
  have hnodup : (buildPortStageMapping stageFor excitedPorts).keys.Nodup := by
    unfold buildPortStageMapping
    exact foldl_mapAssign_nodup (stageFor excitedPorts) excitedPorts [] (by simp [PortStageMap.keys])
  refine ⟨hkeys, ?_, hnodup, ?_, ?_⟩
  · intro k hk
    exact hValid.2 k ((hkeys k).1 hk)
  · intro p hp
    have hmem : p ∈ (buildPortStageMapping stageFor excitedPorts).keys := (hkeys p).2 hp
    simp only [PortStageMap.keys, List.mem_map] at hmem
    obtain ⟨⟨k, s⟩, hks, hk⟩ := hmem
    simp only at hk
    subst hk
    exact ⟨s, hks, fun s' hs' => keys_nodup_unique _ hnodup _ _ _ hs' hks⟩
  · intro again h
    rw [h]

/-- C2 at the ports 1 and 2 of a two-port device: the keys are 1 and 2. -/
theorem portStageMapping_covers_requested_ports_witness :
    validExcitedPorts exampleInfo [1, 2] ∧
    (∀ k : Int, k ∈ (buildPortStageMapping stagePerPort [1, 2]).keys ↔
        k ∈ ([1, 2] : List Int)) ∧
    (buildPortStageMapping stagePerPort [1, 2]).keys.Nodup ∧
    buildPortStageMapping stagePerPort [1, 2] = [(1, 0), (2, 1)] :=
  ⟨⟨by decide, by decide⟩,
   (portStageMapping_covers_requested_ports stagePerPort exampleInfo [1, 2]
      ⟨by decide, by decide⟩).1,
   (portStageMapping_covers_requested_ports stagePerPort exampleInfo [1, 2]
      ⟨by decide, by decide⟩).2.2.1,
   by decide⟩

/-! ## `setVNA` -/

/-- C4: a `setVNA` whose `freqStart` lies below `Info.Limits.minFreq` returns
false, sends no command to a backing device and leaves the virtual device
(info, status, zero span flag, port-stage map, data buffer) as it was. -/
theorem setVNA_below_minFreq_rejected (stageFor : List Int → Int → Nat) (vd : VirtualDevice)
    (s : VNASettings) (hBelow : s.freqStart < vd.info.Limits.minFreq) :
    (vd.setVNA stageFor s).accepted = false ∧
    (vd.setVNA stageFor s).sent = [] ∧
    (vd.setVNA stageFor s).device = vd := by
  have hlim : s.withinLimits vd.info.Limits = false := by
    simp [VNASettings.withinLimits, not_le.mpr hBelow]
  unfold VirtualDevice.setVNA
  cases vd.info.supportsVNAmode <;> simp [hlim]


/-! ## The fusion buffer -/

theorem dataBuffer_entry_mem (buffer : DataBuffer) (p : Nat) (frames : List VNADatapoint)
    (h : buffer.entry p = some frames) : (p, frames) ∈ buffer := by
  unfold DataBuffer.entry at h
  cases hf : buffer.find? (fun e => decide (e.1 = p)) with
  | none => simp [hf] at h
  | some e =>
    simp only [hf, Option.map_some', Option.some.injEq] at h
    have hp := List.find?_some hf
    have hm := List.mem_of_find?_eq_some hf
    simp only [decide_eq_true_eq] at hp
    obtain ⟨a, b⟩ := e
    simp only at hp h
    subst hp h
    exact hm

theorem fusion_sound_collected (st : FusionState) (received : List VNADatapoint)
    (hs : st.Sound received) (p : Nat) :
    ∀ g ∈ (st.compoundDataBuffer.entry p).getD [], g.pointNum = p ∧ g ∈ received := by
  intro g hg
  cases he : st.compoundDataBuffer.entry p with
  | none => simp [he] at hg
  | some frames =>
    simp only [he, Option.getD_some] at hg
    exact hs _ (dataBuffer_entry_mem _ _ _ he) g hg

theorem fusion_receive_sound (compose : List VNADatapoint → VNAMeasurement)
    (required : List Nat) (st : FusionState) (received : List VNADatapoint)
    (frame : VNADatapoint) (hs : st.Sound received) :
    (st.receive compose required frame).state.Sound (received ++ [frame]) := by
  have hmono : st.Sound (received ++ [frame]) := fun e he g hg =>
    ⟨(hs e he g hg).1, List.mem_append_left _ (hs e he g hg).2⟩
  have hcol := fusion_sound_collected st received hs frame.pointNum
  simp only [FusionState.receive]
  split
  · exact hmono
  · split
    · exact hmono
    · split
      · intro e he g hg
        simp only [DataBuffer.erase, List.mem_filter] at he
        exact hmono e he.1 g hg
      · intro e he g hg
        simp only [DataBuffer.assign, DataBuffer.erase, List.mem_cons, List.mem_filter] at he
        rcases he with rfl | he
        · simp only [List.mem_append, List.mem_singleton] at hg
          rcases hg with hg | rfl
          · exact ⟨(hcol g hg).1, List.mem_append_left _ (hcol g hg).2⟩
          · exact ⟨rfl, by simp⟩
        · exact hmono e he.1 g hg

theorem fusion_receive_emitted (compose : List VNADatapoint → VNAMeasurement)
    (required : List Nat) (st : FusionState) (received : List VNADatapoint)
    (frame : VNADatapoint) (m : VNAMeasurement) (hs : st.Sound received)
    (hm : (st.receive compose required frame).emitted = some m) :
    m.pointNum = frame.pointNum ∧
    ∀ s ∈ required, ∃ g ∈ received ++ [frame], g.stage = s ∧ g.pointNum = m.pointNum := by
  have hcol := fusion_sound_collected st received hs frame.pointNum
  simp only [FusionState.receive] at hm
  split at hm
  · simp at hm
  · split at hm
    · simp at hm
    · split at hm
      · rename_i hall
        simp only [Option.some.injEq] at hm
        subst hm
        refine ⟨rfl, fun s hsr => ?_⟩
        have := hall s hsr
        simp only [List.mem_map, List.mem_append, List.mem_singleton] at this
        obtain ⟨g, hg | hg, hst⟩ := this
        · exact ⟨g, List.mem_append_left _ (hcol g hg).2, hst, (hcol g hg).1⟩
        · subst hg
          exact ⟨g, by simp, hst, rfl⟩
      · simp at hm

theorem fusion_run_emitted (compose : List VNADatapoint → VNAMeasurement)
    (required : List Nat) (frames : List VNADatapoint) :
    ∀ (st : FusionState) (received : List VNADatapoint), st.Sound received →
    ∀ m ∈ (st.run compose required frames).2,
      ∃ pre frame post, frames = pre ++ frame :: post ∧
        ((st.run compose required pre).1.receive compose required frame).emitted = some m ∧
        ∀ s ∈ required, ∃ g ∈ received ++ pre ++ [frame],
          g.stage = s ∧ g.pointNum = m.pointNum := by
  induction frames with
  | nil => intro st received _ m hm; simp [FusionState.run] at hm
  | cons f rest ih =>
    intro st received hs m hm
    simp only [FusionState.run, List.mem_append, Option.mem_toList, Option.mem_def] at hm
    rcases hm with hm | hm
    · refine ⟨[], f, rest, rfl, by simpa [FusionState.run] using hm, ?_⟩
      simpa using (fusion_receive_emitted compose required st received f m hs hm).2
    · obtain ⟨pre, frame, post, hsplit, hemit, hall⟩ :=
        ih _ (received ++ [f]) (fusion_receive_sound compose required st received f hs) m hm
      refine ⟨f :: pre, frame, post, by simp [hsplit], by simpa [FusionState.run] using hemit, ?_⟩
      simpa [List.append_assoc] using hall

/-- C1: completeness before emission. Whatever the required stages and whatever
raw results are fed to the empty fusion buffer, every fused measurement that is
emitted is emitted on the receipt of some frame, and by then (that frame
included) a raw result for its point index has been received for every required
stage; so a point with fewer than all required stages is never emitted. -/
theorem completeness_before_emission (compose : List VNADatapoint → VNAMeasurement)
    (required : List Nat) (frames : List VNADatapoint) (m : VNAMeasurement)
    (hEmitted : m ∈ (FusionState.empty.run compose required frames).2) :
    ∃ pre frame post, frames = pre ++ frame :: post ∧
      ((FusionState.empty.run compose required pre).1.receive compose required frame).emitted
        = some m ∧
      ∀ s ∈ required, ∃ g ∈ pre ++ [frame], g.stage = s ∧ g.pointNum = m.pointNum := by
  have hs : FusionState.empty.Sound [] := by
    intro e he
    simp [FusionState.empty] at he
  simpa using fusion_run_emitted compose required frames FusionState.empty [] hs m hEmitted

/-- C3: idempotence of duplicate delivery. When a point index is collecting and
a raw result arrives for a stage that is already buffered for it, the frame is
discarded: the state, and with it the buffered earlier value, is unchanged and
nothing is emitted, so whatever raw results follow, the fused measurements and
the final state are those of the run in which the duplicate is never delivered. -/
theorem duplicate_delivery_idempotent (compose : List VNADatapoint → VNAMeasurement)
    (required : List Nat) (st : FusionState) (duplicate : VNADatapoint)
    (collected : List VNADatapoint) (rest : List VNADatapoint)
    (hCollecting : st.compoundDataBuffer.entry duplicate.pointNum = some collected)
    (hBuffered : duplicate.stage ∈ collected.map VNADatapoint.stage) :
    (st.receive compose required duplicate).state = st ∧
    (st.receive compose required duplicate).emitted = none ∧
    st.run compose required (duplicate :: rest) = st.run compose required rest := by
  have hstep : st.receive compose required duplicate = ⟨st, none, true⟩ := by
    simp only [FusionState.receive, hCollecting, Option.getD_some, if_pos hBuffered]
    split <;> rfl
  refine ⟨by rw [hstep], by rw [hstep], ?_⟩
  simp [FusionState.run, hstep]


/-- C1 at the two stages 0 and 1 and the raw results of both stages for point 5:
the fused measurement for point 5 is emitted on the second receipt. -/
theorem completeness_before_emission_witness :
    ({ countFrames [pointFive 0, pointFive 1] with pointNum := 5 } : VNAMeasurement) ∈
      (FusionState.empty.run countFrames [0, 1] [pointFive 0, pointFive 1]).2 ∧
    ∃ pre frame post, [pointFive 0, pointFive 1] = pre ++ frame :: post ∧
      ((FusionState.empty.run countFrames [0, 1] pre).1.receive countFrames [0, 1] frame).emitted
        = some { countFrames [pointFive 0, pointFive 1] with pointNum := 5 } ∧
      ∀ s ∈ [0, 1], ∃ g ∈ pre ++ [frame], g.stage = s ∧
        g.pointNum =
          ({ countFrames [pointFive 0, pointFive 1] with pointNum := 5 } : VNAMeasurement).pointNum :=
  ⟨by decide,
    completeness_before_emission countFrames [0, 1] [pointFive 0, pointFive 1] _ (by decide)⟩

/-- C3 at a buffer that holds the stage 0 result of point 5, on a second stage 0
result for point 5 followed by the stage 1 result. -/
theorem duplicate_delivery_idempotent_witness :
    (⟨[(5, [pointFive 0])], [(0, 5)]⟩ : FusionState).compoundDataBuffer.entry
        (pointFive 0).pointNum = some [pointFive 0] ∧
    (pointFive 0).stage ∈ [pointFive 0].map VNADatapoint.stage ∧
    (⟨[(5, [pointFive 0])], [(0, 5)]⟩ : FusionState).run countFrames [0, 1]
        [pointFive 0, pointFive 1] =
      (⟨[(5, [pointFive 0])], [(0, 5)]⟩ : FusionState).run countFrames [0, 1] [pointFive 1] :=
  ⟨by decide, by decide,
    (duplicate_delivery_idempotent countFrames [0, 1] ⟨[(5, [pointFive 0])], [(0, 5)]⟩
      (pointFive 0) [pointFive 0] [pointFive 1] (by decide) (by decide)).2.2⟩

/-- C4 at a start frequency of 50 kHz on a device whose minimum frequency is 100 kHz. -/
theorem setVNA_below_minFreq_rejected_witness :
    belowMinSettings.freqStart < exampleDevice.info.Limits.minFreq ∧
    (exampleDevice.setVNA stagePerPort belowMinSettings).accepted = false ∧
    (exampleDevice.setVNA stagePerPort belowMinSettings).sent = [] ∧
    (exampleDevice.setVNA stagePerPort belowMinSettings).device = exampleDevice :=
  ⟨by decide, setVNA_below_minFreq_rejected stagePerPort exampleDevice belowMinSettings
    (by decide)⟩

end LibreVNA
